import Mathlib

/-!
# A2A server runtime: toolbox, RPC router and task processor

A shallow embedding of `adk/server/agent_toolbox.go` and of the request
handling and queue processing parts of `adk/server/server.go`.

* Go pointers that the code dereferences are `Option` values; dereferencing
  `none` is recorded as `Event.nilDeref` and ends the function.
* Calls to collaborators (task manager, message handler, response sender,
  task handler, agent) are recorded, in order, in a trace of `Event`s.  What
  a collaborator returns is given by a function of the trace so far and of the
  call's arguments, so a collaborator may behave in any deterministic way.
* The channel `taskQueue` is a list bounded by its capacity, together with
  the state of its one receiver, the task processor.  The non-blocking send
  succeeds when the processor is blocked in its receive, and then hands the
  entry to it directly, or when the list is shorter than the capacity.  With
  capacity zero the channel is unbuffered and only the first case sends.
-/

set_option autoImplicit false

namespace A2A

/-! ## Errors -/

/-- ToolNotFoundError of agent_toolbox.go. -/
structure ToolNotFoundError where
  ToolName : String
  deriving DecidableEq, Repr

/-- The method `Error` of `*ToolNotFoundError`. -/
def ToolNotFoundError.Error (e : ToolNotFoundError) : String :=
  "tool not found: " ++ e.ToolName

/-- A Go `error` value: either a `*ToolNotFoundError` or any other error,
of which only the text is kept. -/
inductive GoError where
  | toolNotFound (e : ToolNotFoundError)
  | other (msg : String)
  deriving DecidableEq, Repr

/-- The method `Error` of the `error` interface. -/
def GoError.Error : GoError → String
  | .toolNotFound e => e.Error
  | .other msg => msg

/-! ## Toolbox (agent_toolbox.go) -/

/-- A `map[string]interface{}` as tools receive and describe it: keys with the
JSON text of their values. -/
abbrev JSONMap := List (String × String)

/-- The interface `Tool`: what each of its four methods returns.  `GetName`,
`GetDescription` and `GetParameters` are fixed for a tool value, as for
`BasicTool`; `Execute` maps the arguments to the result string and error. -/
structure Tool where
  GetName : String
  GetDescription : String
  GetParameters : JSONMap
  Execute : JSONMap → String × Option GoError

/-- NewBasicTool: a `BasicTool` seen through the `Tool` interface. -/
def NewBasicTool (name description : String) (parameters : JSONMap)
    (executor : JSONMap → String × Option GoError) : Tool :=
  { GetName := name, GetDescription := description, GetParameters := parameters,
    Execute := executor }

/-- DefaultToolBox: the field `tools map[string]Tool`, as a list of entries
read by first match on the key. -/
structure DefaultToolBox where
  tools : List (String × Tool)

/-- The map read `tb.tools[k]`: the value and whether the key exists. -/
def mapGet (m : List (String × Tool)) (k : String) : Option Tool :=
  match m with
  | [] => none
  | (k', v) :: rest => if k' = k then some v else mapGet rest k

/-- The map write `tb.tools[k] = v`: overwrite the entry of `k` when there is
one, add an entry otherwise. -/
def mapSet (m : List (String × Tool)) (k : String) (v : Tool) : List (String × Tool) :=
  match m with
  | [] => [(k, v)]
  | (k', v') :: rest => if k' = k then (k, v) :: rest else (k', v') :: mapSet rest k v

/-- NewDefaultToolBox. -/
def NewDefaultToolBox : DefaultToolBox := { tools := [] }

/-- DefaultToolBox.AddTool: `tb.tools[tool.GetName()] = tool`. -/
def DefaultToolBox.AddTool (tb : DefaultToolBox) (tool : Tool) : DefaultToolBox :=
  { tools := mapSet tb.tools tool.GetName tool }

/-- The constant `sdk.Function` of the chat-completion SDK. -/
def sdkFunction : String := "function"

/-- sdk.FunctionObject: `Description` and `Parameters` are pointers. -/
structure FunctionObject where
  Name : String
  Description : Option String
  Parameters : Option JSONMap
  deriving DecidableEq, Repr

/-- sdk.ChatCompletionTool; `ToolType` is its field `Type`. -/
structure ChatCompletionTool where
  ToolType : String
  Function : FunctionObject
  deriving DecidableEq, Repr

/-- The body of the loop of `GetTools`, for one tool. -/
def toolDescriptor (tool : Tool) : ChatCompletionTool :=
  let description := tool.GetDescription
  let parameters := tool.GetParameters
  { ToolType := sdkFunction,
    Function := { Name := tool.GetName, Description := some description,
                  Parameters := some parameters } }

/-- DefaultToolBox.GetTools: one descriptor appended per map entry, in the
order the entries are ranged over. -/
def DefaultToolBox.GetTools (tb : DefaultToolBox) : List ChatCompletionTool :=
  tb.tools.foldl (fun tools entry => tools ++ [toolDescriptor entry.2]) []

/-- What a call of `ExecuteTool` returns, with the calls of `Tool.Execute` it
made, in order. -/
structure ExecuteOutcome where
  result : String
  err : Option GoError
  executed : List (Tool × JSONMap)

/-- DefaultToolBox.ExecuteTool. -/
def DefaultToolBox.ExecuteTool (tb : DefaultToolBox) (toolName : String)
    (arguments : JSONMap) : ExecuteOutcome :=
  match mapGet tb.tools toolName with
  | none => { result := "", err := some (.toolNotFound { ToolName := toolName }), executed := [] }
  | some tool =>
    let r := tool.Execute arguments
    { result := r.1, err := r.2, executed := [(tool, arguments)] }

/-- DefaultToolBox.GetToolNames: one name appended per map entry. -/
def DefaultToolBox.GetToolNames (tb : DefaultToolBox) : List String :=
  tb.tools.foldl (fun names entry => names ++ [entry.1]) []

/-- DefaultToolBox.HasTool. -/
def DefaultToolBox.HasTool (tb : DefaultToolBox) (toolName : String) : Bool :=
  match mapGet tb.tools toolName with
  | none => false
  | some _ => true

/-- The toolbox reached from `NewDefaultToolBox` by adding the tools of `ts`
one after the other. -/
def addAll (ts : List Tool) : DefaultToolBox :=
  ts.foldl DefaultToolBox.AddTool NewDefaultToolBox

/-! ## Data model of the server (package adk, as server.go uses it) -/

/-- Modelled from the spec: adk.TaskState, whose declaration is outside the
files at hand; the states are those of the task state machine. -/
inductive TaskState where
  | submitted
  | working
  | inputRequired
  | completed
  | canceled
  | failed
  deriving DecidableEq, Repr

/-- The constant adk.TaskStateWorking. -/
def TaskStateWorking : TaskState := .working

/-- The constant adk.TaskStateFailed. -/
def TaskStateFailed : TaskState := .failed

/-- An adk.Part, an `interface{}` that holds a `map[string]interface{}`: the
keys with their values. -/
structure Part where
  fields : JSONMap
  deriving DecidableEq, Repr

/-- The part literal `map[string]interface{}{"kind": "text", "text": text}`. -/
def textPart (text : String) : Part :=
  { fields := [("kind", "text"), ("text", text)] }

/-- The fields of adk.Message that server.go reads or writes. -/
structure Message where
  Kind : String
  MessageID : String
  Role : String
  Parts : List Part
  deriving DecidableEq, Repr

/-- The fields of adk.TaskStatus that server.go reads; `Message` is a pointer. -/
structure TaskStatus where
  State : TaskState
  Message : Option Message
  deriving DecidableEq, Repr

/-- The fields of adk.Task that server.go and its tests use. -/
structure Task where
  ID : String
  ContextID : String
  Status : TaskStatus
  History : List Message
  deriving DecidableEq, Repr

/-- The value behind the `*interface{}` of a request id, as the JSON decoder
leaves it: a string, a number, a boolean, or an array or object kept as text.
JSON `null` leaves the pointer nil and is `none` one level up. -/
inductive IDValue where
  | str (s : String)
  | num (q : Rat)
  | bool (b : Bool)
  | composite (raw : String)
  deriving DecidableEq, Repr

/-- The field `Params interface{}` of a request, kept as JSON text. -/
abbrev RawParams := String

/-- adk.JSONRPCRequest; `ID` is a pointer. -/
structure JSONRPCRequest where
  JSONRPC : String
  ID : Option IDValue
  Method : String
  Params : RawParams
  deriving DecidableEq, Repr

/-- The field of adk.MessageSendParams that the router hands on. -/
structure MessageSendParams where
  Message : Message
  deriving DecidableEq, Repr

/-- adk.TaskQueryParams. -/
structure TaskQueryParams where
  ID : String
  deriving DecidableEq, Repr

/-- adk.TaskIdParams. -/
structure TaskIdParams where
  ID : String
  deriving DecidableEq, Repr

/-- JRPCErrorCode. -/
abbrev JRPCErrorCode := Int

def ErrParseError : JRPCErrorCode := -32700
def ErrInvalidRequest : JRPCErrorCode := -32600
def ErrMethodNotFound : JRPCErrorCode := -32601
def ErrInvalidParams : JRPCErrorCode := -32602
def ErrInternalError : JRPCErrorCode := -32603
def ErrServerError : JRPCErrorCode := -32000

/-- QueuedTask; `Task` is a pointer, `RequestID` holds the request's `ID`. -/
structure QueuedTask where
  Task : Option Task
  RequestID : Option IDValue
  deriving DecidableEq, Repr

/-- The `result interface{}` given to `SendSuccess`. -/
inductive RPCResult where
  | task (t : Task)
  | text (s : String)
  deriving DecidableEq, Repr

/-- One call to a collaborator, with its arguments, or the panic of a nil
pointer dereference (which ends the handling function). -/
inductive Event where
  | SendSuccess (id : Option IDValue) (result : RPCResult)
  | SendError (id : Option IDValue) (code : Int) (message : String)
  | HandleMessageSend (params : MessageSendParams)
  | HandleMessageStream (params : MessageSendParams)
  | GetTask (taskID : String)
  | UpdateTask (taskID : String) (state : TaskState) (message : Option Message)
  | CancelTask (taskID : String)
  | HandleTask (task : Option Task) (message : Option Message)
  | AgentProcessTask (task : Option Task) (message : Option Message)
  | nilDeref
  deriving DecidableEq, Repr

/-- A `TaskHandler.HandleTask` or `OpenAICompatibleAgent.ProcessTask`: from the
trace so far and the two pointers `task` and `message` to the returned
`(*adk.Task, error)`. -/
abbrev TaskFn := List Event → Option Task → Option Message → Option Task × Option GoError

/-- A2AServerImpl: the capacity of `taskQueue` and the collaborators the
handlers call.  Each collaborator is a function of the trace at the time of the
call and of the arguments.  `bindJSON` is `c.ShouldBindJSON(&req)`: the request
as decoding left it, and the error; `marshal` is `json.Marshal(req.Params)`;
the `unmarshal` functions are `json.Unmarshal` into the three parameter types;
`uuid n` is the string of the n-th `uuid.New()`. -/
structure A2AServerImpl where
  maxSize : Nat
  bindJSON : String → JSONRPCRequest × Option GoError
  marshal : RawParams → Except GoError String
  unmarshalMessageSendParams : String → Except GoError MessageSendParams
  unmarshalTaskQueryParams : String → Except GoError TaskQueryParams
  unmarshalTaskIdParams : String → Except GoError TaskIdParams
  HandleMessageSend : List Event → MessageSendParams → Option Task × Option GoError
  HandleMessageStream : List Event → MessageSendParams → Option GoError
  GetTask : List Event → String → Option Task × Bool
  UpdateTask : List Event → String → TaskState → Option Message → Option GoError
  CancelTask : List Event → String → Option GoError
  taskHandler : TaskFn
  agent : Option TaskFn
  uuid : Nat → String

/-- Where the task processor, the only receiver of the channel `taskQueue`,
stands: `parked` when it is blocked in the receive of `StartTaskProcessor` on
an empty channel, `handed q` when a sender woke it with the entry `q` that it
has not started to process, `running` otherwise. -/
inductive Receiver where
  | running
  | parked
  | handed (queuedTask : QueuedTask)
  deriving DecidableEq, Repr

/-- What changes while the server runs: the calls made so far, the content of
the buffer of the channel `taskQueue` (head first out), how many UUIDs were
drawn, and the state of the channel's receiver. -/
structure World where
  trace : List Event
  taskQueue : List QueuedTask
  uuids : Nat
  receiver : Receiver := .running
  deriving DecidableEq, Repr

/-- Record one call. -/
def World.emit (w : World) (e : Event) : World :=
  { w with trace := w.trace ++ [e] }

/-- Count one `uuid.New()`. -/
def World.drawUUID (w : World) : World :=
  { w with uuids := w.uuids + 1 }

/-- The send `s.taskQueue <- queuedTask` into the buffer, once chosen by the
`select`. -/
def World.enqueue (w : World) (queuedTask : QueuedTask) : World :=
  { w with taskQueue := w.taskQueue ++ [queuedTask] }

/-- The send `s.taskQueue <- queuedTask` to a processor blocked in its
receive: the entry goes to the processor, not through the buffer. -/
def World.handOver (w : World) (queuedTask : QueuedTask) : World :=
  { w with receiver := .handed queuedTask }

/-- The entries sent on the channel that the processor has not started to
process, in the order it will take them: the one handed to it, then the
buffer. -/
def World.pending (w : World) : List QueuedTask :=
  match w.receiver with
  | .handed queuedTask => queuedTask :: w.taskQueue
  | _ => w.taskQueue

/-! ## Task processing (server.go) -/

/-- The message `processQueuedTask` builds when the task has none. -/
def emptyUserMessage (messageID : String) : Message :=
  { Kind := "message", MessageID := messageID, Role := "user", Parts := [] }

/-- The assistant message with one text part that `processQueuedTask` and
`handleMessageSend` attach to a failed task. -/
def assistantTextMessage (messageID text : String) : Message :=
  { Kind := "message", MessageID := messageID, Role := "assistant", Parts := [textPart text] }

/-- A2AServerImpl.ProcessTask: what it returns (`none` when it panics) and the
world after it.  With an agent set, the log call reads `task.ID` first. -/
def ProcessTask (s : A2AServerImpl) (task : Option Task) (message : Option Message)
    (w : World) : Option (Option Task × Option GoError) × World :=
  match s.agent with
  | some agent =>
    match task with
    | none => (none, w.emit .nilDeref)
    | some _ => (some (agent w.trace task message), w.emit (.AgentProcessTask task message))
  | none => (some (s.taskHandler w.trace task message), w.emit (.HandleTask task message))

/-- The `message` of `processQueuedTask`: the task's status message when it
has one, a fresh empty user message otherwise. -/
def queuedMessage (s : A2AServerImpl) (task : Task) (w : World) : Message :=
  match task.Status.Message with
  | some m => m
  | none => emptyUserMessage (s.uuid w.uuids)

/-- A2AServerImpl.processQueuedTask. -/
def processQueuedTask (s : A2AServerImpl) (queuedTask : QueuedTask) (w : World) : World :=
  match queuedTask.Task with
  | none => w.emit .nilDeref
  | some task =>
    let message : Message := queuedMessage s task w
    let w0 : World :=
      match task.Status.Message with
      | some _ => w
      | none => w.drawUUID
    let w1 := w0.emit (.UpdateTask task.ID TaskStateWorking none)
    match s.UpdateTask w0.trace task.ID TaskStateWorking none with
    | some _ => w1
    | none =>
      let w2 := w1.emit (.HandleTask (some task) (some message))
      let r := s.taskHandler w1.trace (some task) (some message)
      match r.2 with
      | some err =>
        w2.drawUUID.emit
          (.UpdateTask task.ID TaskStateFailed
            (some (assistantTextMessage (s.uuid w2.uuids) err.Error)))
      | none =>
        match r.1 with
        | none => w2.emit .nilDeref
        | some updatedTask =>
          w2.emit (.UpdateTask updatedTask.ID updatedTask.Status.State none)

/-- One turn of the loop of `StartTaskProcessor`: process the entry a sender
handed over, or else receive the head of the buffer and process it, or else,
the channel being empty, block in the receive. -/
def processorStep (s : A2AServerImpl) (w : World) : World :=
  match w.receiver with
  | .handed queuedTask => processQueuedTask s queuedTask { w with receiver := .running }
  | _ =>
    match w.taskQueue with
    | [] => { w with receiver := .parked }
    | queuedTask :: rest =>
      processQueuedTask s queuedTask { w with taskQueue := rest, receiver := .running }

/-! ## RPC router (server.go) -/

/-- A2AServerImpl.handleMessageSend. -/
def handleMessageSend (s : A2AServerImpl) (req : JSONRPCRequest) (w : World) : World :=
  match s.marshal req.Params with
  | .error _ => w.emit (.SendError req.ID ErrInvalidParams "invalid params")
  | .ok paramsBytes =>
    match s.unmarshalMessageSendParams paramsBytes with
    | .error _ => w.emit (.SendError req.ID ErrInvalidParams "invalid request")
    | .ok params =>
      let w1 := w.emit (.HandleMessageSend params)
      let r := s.HandleMessageSend w.trace params
      match r.2 with
      | some err => w1.emit (.SendError req.ID ErrInternalError err.Error)
      | none =>
        let queuedTask : QueuedTask := { Task := r.1, RequestID := req.ID }
        if w1.receiver = .parked then
          let w2 := w1.handOver queuedTask
          match r.1 with
          | none => w2.emit .nilDeref
          | some task => w2.emit (.SendSuccess req.ID (.task task))
        else if w1.taskQueue.length < s.maxSize then
          let w2 := w1.enqueue queuedTask
          match r.1 with
          | none => w2.emit .nilDeref
          | some task => w2.emit (.SendSuccess req.ID (.task task))
        else
          match r.1 with
          | none => w1.emit .nilDeref
          | some task =>
            let w2 := w1.drawUUID.emit
              (.UpdateTask task.ID TaskStateFailed
                (some (assistantTextMessage (s.uuid w1.uuids)
                  "Task queue is full. Please try again later.")))
            w2.emit (.SendSuccess req.ID (.task task))

/-- A2AServerImpl.handleMessageStream. -/
def handleMessageStream (s : A2AServerImpl) (req : JSONRPCRequest) (w : World) : World :=
  match s.marshal req.Params with
  | .error _ => w.emit (.SendError req.ID ErrInvalidParams "invalid params")
  | .ok paramsBytes =>
    match s.unmarshalMessageSendParams paramsBytes with
    | .error _ => w.emit (.SendError req.ID ErrInvalidParams "invalid request")
    | .ok params =>
      let w1 := w.emit (.HandleMessageStream params)
      match s.HandleMessageStream w.trace params with
      | some err => w1.emit (.SendError req.ID ErrInternalError err.Error)
      | none => w1.emit (.SendSuccess req.ID (.text "streaming started successfully"))

/-- A2AServerImpl.handleTaskGet. -/
def handleTaskGet (s : A2AServerImpl) (req : JSONRPCRequest) (w : World) : World :=
  match s.marshal req.Params with
  | .error _ => w.emit (.SendError req.ID ErrInvalidParams "invalid params")
  | .ok paramsBytes =>
    match s.unmarshalTaskQueryParams paramsBytes with
    | .error _ => w.emit (.SendError req.ID ErrInvalidParams "invalid request")
    | .ok params =>
      let w1 := w.emit (.GetTask params.ID)
      let r := s.GetTask w.trace params.ID
      if r.2 = false then
        w1.emit (.SendError req.ID ErrInvalidParams "task not found")
      else
        match r.1 with
        | none => w1.emit .nilDeref
        | some task => w1.emit (.SendSuccess req.ID (.task task))

/-- A2AServerImpl.handleTaskCancel. -/
def handleTaskCancel (s : A2AServerImpl) (req : JSONRPCRequest) (w : World) : World :=
  match s.marshal req.Params with
  | .error _ => w.emit (.SendError req.ID ErrInvalidParams "invalid params")
  | .ok paramsBytes =>
    match s.unmarshalTaskIdParams paramsBytes with
    | .error _ => w.emit (.SendError req.ID ErrInvalidParams "invalid request")
    | .ok params =>
      let w1 := w.emit (.CancelTask params.ID)
      match s.CancelTask w.trace params.ID with
      | some err => w1.emit (.SendError req.ID ErrInvalidParams err.Error)
      | none =>
        let w2 := w1.emit (.GetTask params.ID)
        match (s.GetTask w1.trace params.ID).1 with
        | none => w2.emit .nilDeref
        | some task => w2.emit (.SendSuccess req.ID (.task task))

/-- The request after the two defaults of `handleA2ARequest`: an empty
`JSONRPC` becomes "2.0" and a nil `ID` points to a fresh UUID string. -/
def applyDefaults (s : A2AServerImpl) (req : JSONRPCRequest) (w : World) : JSONRPCRequest :=
  let req1 : JSONRPCRequest := if req.JSONRPC = "" then { req with JSONRPC := "2.0" } else req
  match req1.ID with
  | none => { req1 with ID := some (.str (s.uuid w.uuids)) }
  | some _ => req1

/-- The switch on `req.Method` of `handleA2ARequest`. -/
def dispatch (s : A2AServerImpl) (req : JSONRPCRequest) (w : World) : World :=
  if req.Method = "message/send" then handleMessageSend s req w
  else if req.Method = "message/stream" then handleMessageStream s req w
  else if req.Method = "tasks/get" then handleTaskGet s req w
  else if req.Method = "tasks/cancel" then handleTaskCancel s req w
  else w.emit (.SendError req.ID ErrMethodNotFound "method not found")

/-- A2AServerImpl.handleA2ARequest on the request body `body`. -/
def handleA2ARequest (s : A2AServerImpl) (body : String) (w : World) : World :=
  let bound := s.bindJSON body
  match bound.2 with
  | some _ => w.emit (.SendError bound.1.ID ErrParseError "parse error")
  | none =>
    let req := applyDefaults s bound.1 w
    let w0 : World :=
      match bound.1.ID with
      | none => w.drawUUID
      | some _ => w
    dispatch s req w0

/-- The calls to the response sender among some events. -/
def senderCalls (evs : List Event) : List Event :=
  evs.filter fun e =>
    match e with
    | .SendSuccess _ _ => true
    | .SendError _ _ _ => true
    | _ => false

/-- The calls to the task manager among some events. -/
def registryCalls (evs : List Event) : List Event :=
  evs.filter fun e =>
    match e with
    | .GetTask _ => true
    | .UpdateTask _ _ _ => true
    | .CancelTask _ => true
    | _ => false

/-- The request id an event hands to the response sender, if it is a call to
the response sender. -/
def Event.senderID : Event → Option (Option IDValue)
  | .SendSuccess id _ => some id
  | .SendError id _ _ => some id
  | _ => none

/-- The events a run added: the trace after it, without the trace before. -/
def newEvents (before after : World) : List Event :=
  after.trace.drop before.trace.length

/-! ## Parameter decoding and replies, as the claims speak of them -/

/-- The two decoding steps every method handler starts with,
`json.Marshal(req.Params)` then `json.Unmarshal` into the method's parameter
type: the decoded parameters, or `none` when either step fails. -/
def decodeParams {α : Type} (s : A2AServerImpl) (unmarshal : String → Except GoError α)
    (params : RawParams) : Option α :=
  match s.marshal params with
  | .error _ => none
  | .ok paramsBytes =>
    match unmarshal paramsBytes with
    | .error _ => none
    | .ok decoded => some decoded

/-- A run whose only effect is one `SendError` with the code `code`: the queue
is as before and no other call was made. -/
def OnlyErrorReply (code : Int) (w w' : World) : Prop :=
  w'.taskQueue = w.taskQueue ∧
  ∃ id message, newEvents w w' = [Event.SendError id code message]

/-- The error codes among the `SendError` calls of some events. -/
def errorCodes (evs : List Event) : List Int :=
  evs.filterMap fun e =>
    match e with
    | .SendError _ code _ => some code
    | _ => none

/-! ## The queue between admission and the processor -/

/-- What happens to the queue: a `message/send` request is handled, or the
processor takes its next turn. -/
inductive QueueStep where
  | send (req : JSONRPCRequest)
  | receive
  deriving DecidableEq, Repr

/-- One step on the world. -/
def queueStep (s : A2AServerImpl) (w : World) : QueueStep → World
  | .send req => handleMessageSend s req w
  | .receive => processorStep s w

/-- A sequence of admissions and processor turns, from the world `w`. -/
def runQueue (s : A2AServerImpl) (w : World) (steps : List QueueStep) : World :=
  steps.foldl (queueStep s) w

/-- The entry a run from `w` to `w1` sent on the channel, if any: the one
handed to the processor when it was blocked, what the buffer gained
otherwise. -/
def sentEntries (w w1 : World) : List QueuedTask :=
  if w.receiver = .parked then
    match w1.receiver with
    | .handed queuedTask => [queuedTask]
    | _ => []
  else w1.taskQueue.drop w.taskQueue.length

/-- The entries a sequence of steps admitted to the queue, in the order of
admission: what each `message/send` sent on the channel. -/
def admitted (s : A2AServerImpl) (w : World) : List QueueStep → List QueuedTask
  | [] => []
  | .send req :: rest =>
    sentEntries w (handleMessageSend s req w) ++ admitted s (handleMessageSend s req w) rest
  | .receive :: rest => admitted s (processorStep s w) rest

/-- The entries the processor took up during a sequence of steps, in the
order it took them. -/
def received (s : A2AServerImpl) (w : World) : List QueueStep → List QueuedTask
  | [] => []
  | .send req :: rest => received s (handleMessageSend s req w) rest
  | .receive :: rest => w.pending.take 1 ++ received s (processorStep s w) rest

/-- The state of the channel that the Go runtime keeps: a receiver is blocked
only on an empty buffer. -/
def ChannelOK (w : World) : Prop :=
  w.receiver = .parked → w.taskQueue = []

/-! ## Agent card (server.go) -/

/-- config.CapabilitiesConfig. -/
structure CapabilitiesConfig where
  Streaming : Bool
  PushNotifications : Bool
  StateTransitionHistory : Bool
  deriving DecidableEq, Repr

/-- The fields of config.Config that `GetAgentCard` and the four setters use;
`Capabilities` is the pointer field `CapabilitiesConfig`. -/
structure Config where
  AgentName : String
  AgentDescription : String
  AgentURL : String
  AgentVersion : String
  Capabilities : Option CapabilitiesConfig
  deriving DecidableEq, Repr

/-- adk.AgentCapabilities; the three flags are pointers. -/
structure AgentCapabilities where
  Streaming : Option Bool
  PushNotifications : Option Bool
  StateTransitionHistory : Option Bool
  deriving DecidableEq, Repr

/-- An adk.AgentSkill; `GetAgentCard` builds none, so only its name is kept. -/
structure AgentSkill where
  Name : String
  deriving DecidableEq, Repr

/-- The fields of adk.AgentCard that `GetAgentCard` sets. -/
structure AgentCard where
  Name : String
  Description : String
  URL : String
  Version : String
  Capabilities : AgentCapabilities
  DefaultInputModes : List String
  DefaultOutputModes : List String
  Skills : List AgentSkill
  deriving DecidableEq, Repr

/-- A2AServerImpl.GetAgentCard, as a function of the configuration `s.cfg`,
the only state it reads. -/
def GetAgentCard (cfg : Config) : AgentCard :=
  let capabilities : AgentCapabilities :=
    match cfg.Capabilities with
    | some c =>
      { Streaming := some c.Streaming, PushNotifications := some c.PushNotifications,
        StateTransitionHistory := some c.StateTransitionHistory }
    | none =>
      let defaultStreaming := true
      let defaultPushNotifications := true
      let defaultStateTransitionHistory := false
      { Streaming := some defaultStreaming,
        PushNotifications := some defaultPushNotifications,
        StateTransitionHistory := some defaultStateTransitionHistory }
  { Name := cfg.AgentName, Description := cfg.AgentDescription, URL := cfg.AgentURL,
    Version := cfg.AgentVersion, Capabilities := capabilities,
    DefaultInputModes := ["text/plain"], DefaultOutputModes := ["text/plain"], Skills := [] }

/-- A2AServerImpl.SetAgentName, on the configuration. -/
def SetAgentName (cfg : Config) (name : String) : Config :=
  { cfg with AgentName := name }

/-- A2AServerImpl.SetAgentDescription, on the configuration. -/
def SetAgentDescription (cfg : Config) (description : String) : Config :=
  { cfg with AgentDescription := description }

/-- A2AServerImpl.SetAgentURL, on the configuration. -/
def SetAgentURL (cfg : Config) (url : String) : Config :=
  { cfg with AgentURL := url }

/-- A2AServerImpl.SetAgentVersion, on the configuration. -/
def SetAgentVersion (cfg : Config) (version : String) : Config :=
  { cfg with AgentVersion := version }

/-! ## Setters of the executors (server.go) -/

/-- A2AServerImpl.SetTaskHandler. -/
def SetTaskHandler (s : A2AServerImpl) (handler : TaskFn) : A2AServerImpl :=
  { s with taskHandler := handler }

/-- A2AServerImpl.GetTaskHandler. -/
def GetTaskHandler (s : A2AServerImpl) : TaskFn :=
  s.taskHandler

/-- A2AServerImpl.SetAgent: it assigns `s.agent` and nothing else. -/
def SetAgent (s : A2AServerImpl) (agent : Option TaskFn) : A2AServerImpl :=
  { s with agent := agent }

/-- A2AServerImpl.GetAgent. -/
def GetAgent (s : A2AServerImpl) : Option TaskFn :=
  s.agent

/-- Whether some events hold a panic. -/
def panicked (evs : List Event) : Bool :=
  evs.any fun e =>
    match e with
    | .nilDeref => true
    | _ => false

/-! ## Request ids on the wire -/

/-- The `id` member of an envelope as it stands in the request body: absent
(or `null`), a string, or an integer number literal. -/
inductive WireID where
  | absent
  | str (text : String)
  | int (n : Int)
  deriving DecidableEq, Repr

/-- How many low bits the magnitude `a` has beyond the 53 bits of precision
of a float64. -/
def excessBits : Nat → Nat → Nat
  | 0, _ => 0
  | fuel + 1, a => if a < 2 ^ 53 then 0 else excessBits fuel (a / 2) + 1

/-- The float64 nearest to the integer `n`, ties to even, as an integer: the
value that the JSON decoder stores for the number literal `n` when the target
is an `interface{}`, as the `ID *interface{}` of a request is.  Literals
beyond the float64 range, which the decoder refuses, are not meant. -/
def nearestFloat64 (n : Int) : Int :=
  let a := n.natAbs
  let e := excessBits 1024 a
  let q := a / 2 ^ e
  let r := a % 2 ^ e
  let half := 2 ^ (e - 1)
  let q1 := if e ≠ 0 ∧ (half < r ∨ (r = half ∧ q % 2 = 1)) then q + 1 else q
  if n < 0 then -((q1 * 2 ^ e : Nat) : Int) else ((q1 * 2 ^ e : Nat) : Int)

/-- The `ID` that decoding leaves in the request for an id on the wire: a nil
pointer, the string, or the number as a float64. -/
def decodeID : WireID → Option IDValue
  | .absent => none
  | .str text => some (.str text)
  | .int n => some (.num ((nearestFloat64 n : Int) : Rat))

/-! ## Example tools and toolboxes -/

/-- A tool registered as "echo". -/
def echoTool : Tool :=
  NewBasicTool "echo" "returns a fixed reply" [] (fun _ => ("first", none))

/-- Another tool that also reports the name "echo". -/
def echoToolNew : Tool :=
  NewBasicTool "echo" "returns another fixed reply" [] (fun _ => ("second", none))

/-- A tool registered as "clock". -/
def clockTool : Tool :=
  NewBasicTool "clock" "returns the time" [("type", "object")] (fun _ => ("noon", none))

/-- A tool "lookup" whose executor itself returns a `*ToolNotFoundError`, as a
tool that forwards to another toolbox does. -/
def lookupTool : Tool :=
  NewBasicTool "lookup" "forwards to another toolbox" []
    (fun _ => ("", some (.toolNotFound { ToolName := "lookup" })))

/-! ## Example servers and worlds -/

/-- The user message of the seed scenario. -/
def helloMessage : Message :=
  { Kind := "message", MessageID := "m1", Role := "user", Parts := [textPart "hello"] }

/-- A submitted task that carries `helloMessage`. -/
def helloTask : Task :=
  { ID := "task-456", ContextID := "context-789",
    Status := { State := .submitted, Message := some helloMessage }, History := [] }

/-- A submitted task without a status message. -/
def bareTask : Task :=
  { ID := "task-457", ContextID := "context-789",
    Status := { State := .submitted, Message := none }, History := [] }

/-- A `message/send` request with the numeric id 1. -/
def sendRequest : JSONRPCRequest :=
  { JSONRPC := "2.0", ID := some (.num 1), Method := "message/send", Params := "\x7b\x7d" }

/-- A `message/send` request without `jsonrpc` and without `id`. -/
def bareRequest : JSONRPCRequest :=
  { JSONRPC := "", ID := none, Method := "message/send", Params := "\x7b\x7d" }

/-- A server with a queue of capacity one whose collaborators all succeed: the
message handler creates `helloTask`, the registry knows "task-456", and the
task handler completes the task it is given. -/
def echoServer : A2AServerImpl :=
  { maxSize := 1
    bindJSON := fun _ => (sendRequest, none)
    marshal := fun params => .ok params
    unmarshalMessageSendParams := fun _ => .ok { Message := helloMessage }
    unmarshalTaskQueryParams := fun _ => .ok { ID := "task-456" }
    unmarshalTaskIdParams := fun _ => .ok { ID := "task-456" }
    HandleMessageSend := fun _ _ => (some helloTask, none)
    HandleMessageStream := fun _ _ => none
    GetTask := fun _ taskID => if taskID = "task-456" then (some helloTask, true) else (none, false)
    UpdateTask := fun _ _ _ _ => none
    CancelTask := fun _ taskID =>
      if taskID = "task-456" then none else some (.other "task not found")
    taskHandler := fun _ task _ =>
      (task.map fun t => { t with Status := { State := .completed, Message := none } }, none)
    agent := none
    uuid := fun n => String.mk (List.replicate (n + 1) (Char.ofNat 117)) }

/-- The server `echoServer` with a request body that has neither `jsonrpc` nor
`id`. -/
def bareRequestServer : A2AServerImpl :=
  { echoServer with bindJSON := fun _ => (bareRequest, none) }

/-- The server `echoServer` with a message handler that returns a nil task
and a nil error. -/
def nilTaskServer : A2AServerImpl :=
  { echoServer with HandleMessageSend := fun _ _ => (none, none) }

/-- The server `echoServer` with a task handler that fails. -/
def failingServer : A2AServerImpl :=
  { echoServer with taskHandler := fun _ _ _ => (none, some (.other "provider unavailable")) }

/-- The server `echoServer` with the task handler of the tests, which returns
a completed task whose id is "test-task" whatever task it is given. -/
def fixedReplyServer : A2AServerImpl :=
  { echoServer with
    taskHandler := fun _ _ _ =>
      (some { ID := "test-task", ContextID := "test-context",
              Status := { State := .completed, Message := none }, History := [] }, none) }

/-- The world before anything happened. -/
def emptyWorld : World := { trace := [], taskQueue := [], uuids := 0 }

/-- A world whose queue already holds one entry. -/
def busyWorld : World :=
  { trace := [], taskQueue := [{ Task := some bareTask, RequestID := none }], uuids := 0 }

/-- A `tasks/get` request that says `"jsonrpc": "1.0"`. -/
def oldVersionRequest : JSONRPCRequest :=
  { JSONRPC := "1.0", ID := some (.str "x"), Method := "tasks/get", Params := "\x7b\x7d" }

/-- A request without a `method`. -/
def noMethodRequest : JSONRPCRequest :=
  { JSONRPC := "2.0", ID := some (.str "x"), Method := "", Params := "\x7b\x7d" }

/-- A `tasks/cancel` request. -/
def cancelRequest : JSONRPCRequest :=
  { JSONRPC := "2.0", ID := some (.num 2), Method := "tasks/cancel", Params := "\x7b\x7d" }

/-- The server `echoServer` receiving `oldVersionRequest`. -/
def oldVersionServer : A2AServerImpl :=
  { echoServer with bindJSON := fun _ => (oldVersionRequest, none) }

/-- The server `echoServer` receiving `noMethodRequest`. -/
def noMethodServer : A2AServerImpl :=
  { echoServer with bindJSON := fun _ => (noMethodRequest, none) }

/-- The server `echoServer` with a registry in which "task-456" is already
completed, so that `CancelTask` rejects the transition. -/
def terminalTaskServer : A2AServerImpl :=
  { echoServer with
    CancelTask := fun _ _ => some (.other "task is already in a terminal state") }

/-- The server `echoServer` with an agent set. -/
def agentServer : A2AServerImpl :=
  { echoServer with
    agent := some fun _ task _ =>
      (task.map fun t => { t with Status := { State := .inputRequired, Message := none } }, none) }

/-- The configuration of the tests, without a capabilities section. -/
def testConfig : Config :=
  { AgentName := "test-agent", AgentDescription := "A test agent",
    AgentURL := "http://test-agent:8080", AgentVersion := "1.0.0", Capabilities := none }

/-- The request value a failed decoding leaves behind: all fields zero. -/
def zeroRequest : JSONRPCRequest :=
  { JSONRPC := "", ID := none, Method := "", Params := "" }

/-- The server `echoServer` receiving a body that is not JSON. -/
def malformedBodyServer : A2AServerImpl :=
  { echoServer with
    bindJSON := fun _ => (zeroRequest, some (.other "unexpected end of JSON input")) }

/-- The server `echoServer` receiving a `tasks/get` request whose params do
not decode. -/
def badParamsServer : A2AServerImpl :=
  { echoServer with
    bindJSON := fun _ => (oldVersionRequest, none)
    unmarshalTaskQueryParams := fun _ => .error (.other "cannot unmarshal") }

/-- An agent that asks for more input on every task. -/
def askingAgent : TaskFn := fun _ task _ =>
  (task.map fun t => { t with Status := { State := .inputRequired, Message := none } }, none)

/-- The server `echoServer` with a task handler that returns a nil task and a
nil error. -/
def nilReplyServer : A2AServerImpl :=
  { echoServer with taskHandler := fun _ _ _ => (none, none) }

/-- The server `echoServer` with a registry that rejects every update. -/
def rejectingServer : A2AServerImpl :=
  { echoServer with UpdateTask := fun _ _ _ _ => some (.other "task not found") }

/-- The server `echoServer` with a queue of capacity zero: an unbuffered
channel. -/
def unbufferedServer : A2AServerImpl :=
  { echoServer with maxSize := 0 }

/-- The world in which the processor found the channel empty and is blocked
in its receive. -/
def parkedWorld : World :=
  { trace := [], taskQueue := [], uuids := 0, receiver := .parked }

/-- A `tasks/get` request whose id on the wire is the number
9007199254740993, which is 2^53 + 1. -/
def bigIdRequest : JSONRPCRequest :=
  { JSONRPC := "2.0", ID := decodeID (.int 9007199254740993), Method := "tasks/get",
    Params := "\x7b\x7d" }

/-- The server `echoServer` receiving `bigIdRequest`. -/
def bigIdServer : A2AServerImpl :=
  { echoServer with bindJSON := fun _ => (bigIdRequest, none) }

/-! ## Lemmas on the toolbox map -/

theorem foldl_append_singleton {α β : Type} (f : α → β) (l : List α) (init : List β) :
    l.foldl (fun acc x => acc ++ [f x]) init = init ++ l.map f := by
  induction l generalizing init with
  | nil => simp
  | cons x xs ih => simp [ih]

theorem GetToolNames_eq_keys (tb : DefaultToolBox) :
    tb.GetToolNames = tb.tools.map Prod.fst := by
  simp [DefaultToolBox.GetToolNames, foldl_append_singleton Prod.fst]

theorem GetTools_eq_map (tb : DefaultToolBox) :
    tb.GetTools = tb.tools.map (fun entry => toolDescriptor entry.2) := by
  simp [DefaultToolBox.GetTools, foldl_append_singleton (fun e : String × Tool => toolDescriptor e.2)]

theorem mapGet_eq_none_iff (m : List (String × Tool)) (k : String) :
    mapGet m k = none ↔ k ∉ m.map Prod.fst := by
  induction m with
  | nil => simp [mapGet]
  | cons e rest ih =>
    obtain ⟨k', v⟩ := e
    by_cases h : k' = k
    · simp [mapGet, h]
    · have h' : ¬ k = k' := fun c => h c.symm
      simp [mapGet, h, h', ih]

theorem mem_of_mapGet (m : List (String × Tool)) (k : String) (t : Tool)
    (h : mapGet m k = some t) : (k, t) ∈ m := by
  induction m with
  | nil => simp [mapGet] at h
  | cons e rest ih =>
    obtain ⟨k', v⟩ := e
    by_cases hk : k' = k
    · simp [mapGet, hk] at h
      simp [hk, h]
    · simp [mapGet, hk] at h
      exact List.mem_cons_of_mem _ (ih h)

theorem mapGet_mapSet_self (m : List (String × Tool)) (k : String) (v : Tool) :
    mapGet (mapSet m k v) k = some v := by
  induction m with
  | nil => simp [mapSet, mapGet]
  | cons e rest ih =>
    obtain ⟨k', v'⟩ := e
    by_cases hk : k' = k
    · simp [mapSet, mapGet, hk]
    · simp [mapSet, mapGet, hk, ih]

theorem mapGet_mapSet_ne (m : List (String × Tool)) (k k' : String) (v : Tool)
    (hne : k' ≠ k) : mapGet (mapSet m k v) k' = mapGet m k' := by
  induction m with
  | nil =>
    have h' : ¬ k = k' := fun c => hne c.symm
    simp [mapSet, mapGet, h']
  | cons e rest ih =>
    obtain ⟨k0, v0⟩ := e
    by_cases hk : k0 = k
    · subst hk
      have h' : ¬ k0 = k' := fun c => hne c.symm
      simp [mapSet, mapGet, h']
    · by_cases hk' : k0 = k'
      · subst hk'
        simp [mapSet, mapGet, hk]
      · simp [mapSet, mapGet, hk, hk', ih]

theorem keys_mapSet_of_mem (m : List (String × Tool)) (k : String) (v : Tool)
    (h : k ∈ m.map Prod.fst) : (mapSet m k v).map Prod.fst = m.map Prod.fst := by
  induction m with
  | nil => simp at h
  | cons e rest ih =>
    obtain ⟨k', v'⟩ := e
    by_cases hk : k' = k
    · simp [mapSet, hk]
    · have hk2 : ¬ k = k' := fun c => hk c.symm
      have hrest : k ∈ rest.map Prod.fst := by
        simpa [hk2] using h
      simp [mapSet, hk, ih hrest]

theorem keys_mapSet_of_not_mem (m : List (String × Tool)) (k : String) (v : Tool)
    (h : k ∉ m.map Prod.fst) : (mapSet m k v).map Prod.fst = m.map Prod.fst ++ [k] := by
  induction m with
  | nil => simp [mapSet]
  | cons e rest ih =>
    obtain ⟨k', v'⟩ := e
    have hk : ¬ k' = k := by
      intro c
      apply h
      simp [c]
    have hrest : k ∉ rest.map Prod.fst := by
      intro c
      apply h
      simp only [List.map_cons, List.mem_cons]
      exact Or.inr c
    simp [mapSet, hk, ih hrest]

theorem mem_keys_mapSet (m : List (String × Tool)) (k k' : String) (v : Tool) :
    k' ∈ (mapSet m k v).map Prod.fst ↔ k' = k ∨ k' ∈ m.map Prod.fst := by
  by_cases h : k ∈ m.map Prod.fst
  · rw [keys_mapSet_of_mem m k v h]
    constructor
    · exact Or.inr
    · rintro (rfl | h')
      · exact h
      · exact h'
  · rw [keys_mapSet_of_not_mem m k v h]
    simp only [List.mem_append, List.mem_singleton]
    tauto

theorem nodup_keys_mapSet (m : List (String × Tool)) (k : String) (v : Tool)
    (h : (m.map Prod.fst).Nodup) : ((mapSet m k v).map Prod.fst).Nodup := by
  by_cases hk : k ∈ m.map Prod.fst
  · rw [keys_mapSet_of_mem m k v hk]
    exact h
  · rw [keys_mapSet_of_not_mem m k v hk]
    rw [List.nodup_append]
    refine ⟨h, List.nodup_singleton k, ?_⟩
    intro a ha hb
    rw [List.mem_singleton] at hb
    subst hb
    exact hk ha

theorem mem_mapSet (m : List (String × Tool)) (k : String) (v : Tool) (e : String × Tool)
    (h : e ∈ mapSet m k v) : e = (k, v) ∨ e ∈ m := by
  induction m with
  | nil =>
    simp [mapSet] at h
    exact Or.inl h
  | cons e0 rest ih =>
    obtain ⟨k', v'⟩ := e0
    by_cases hk : k' = k
    · simp only [mapSet, hk, if_true, List.mem_cons] at h
      rcases h with h | h
      · exact Or.inl h
      · exact Or.inr (List.mem_cons_of_mem _ h)
    · simp only [mapSet, hk, if_false, List.mem_cons] at h
      rcases h with h | h
      · exact Or.inr (by simp [h])
      · rcases ih h with h' | h'
        · exact Or.inl h'
        · exact Or.inr (List.mem_cons_of_mem _ h')

/-- What holds of every toolbox built by `AddTool` from the empty one: the
keys are distinct, every entry is stored under the name its tool reports, and
the keys are the names of the tools added. -/
theorem addAll_invariant (ts : List Tool) :
    ((addAll ts).tools.map Prod.fst).Nodup ∧
    (∀ e ∈ (addAll ts).tools, e.2.GetName = e.1) ∧
    (∀ n, n ∈ (addAll ts).tools.map Prod.fst ↔ ∃ t ∈ ts, t.GetName = n) := by
  induction ts using List.reverseRecOn with
  | nil => simp [addAll, NewDefaultToolBox]
  | append_singleton l a ih =>
    obtain ⟨hnd, hname, hkeys⟩ := ih
    have hstep : addAll (l ++ [a]) = (addAll l).AddTool a := by
      simp [addAll, List.foldl_append]
    rw [hstep]
    refine ⟨nodup_keys_mapSet _ _ _ hnd, ?_, ?_⟩
    · intro e he
      rcases mem_mapSet _ _ _ _ he with h | h
      · rw [h]
      · exact hname e h
    · intro n
      simp only [DefaultToolBox.AddTool]
      rw [mem_keys_mapSet, hkeys n]
      constructor
      · rintro (h | ⟨t, ht, hn⟩)
        · exact ⟨a, by simp, h.symm⟩
        · exact ⟨t, by simp [ht], hn⟩
      · rintro ⟨t, ht, hn⟩
        rw [List.mem_append, List.mem_singleton] at ht
        rcases ht with ht | ht
        · exact Or.inr ⟨t, ht, hn⟩
        · subst ht
          exact Or.inl hn.symm

theorem HasTool_eq_true_iff (tb : DefaultToolBox) (n : String) :
    tb.HasTool n = true ↔ ∃ t, mapGet tb.tools n = some t := by
  unfold DefaultToolBox.HasTool
  cases h : mapGet tb.tools n <;> simp

theorem HasTool_eq_false_iff (tb : DefaultToolBox) (n : String) :
    tb.HasTool n = false ↔ mapGet tb.tools n = none := by
  unfold DefaultToolBox.HasTool
  cases h : mapGet tb.tools n <;> simp

/-! ## Toolbox: ExecuteTool, AddTool, GetToolNames, GetTools -/

/-- C6, as amended.  For every toolbox, name `n` and arguments `a`: when no
tool is registered under `n`, `ExecuteTool` returns the empty string and a
`ToolNotFoundError` for `n`, whose text is "tool not found: " followed by `n`,
and executes no tool; when a tool `t` is registered under `n`, it returns the
result and the error of `t.Execute a` unchanged and executes `t` once.  It
fails with tool-not-found without executing a tool exactly when `HasTool n` is
false. -/
theorem ExecuteTool_not_found_or_delegates (tb : DefaultToolBox) (n : String) (a : JSONMap) :
    (tb.HasTool n = false →
      (tb.ExecuteTool n a).result = "" ∧
      (tb.ExecuteTool n a).err = some (.toolNotFound { ToolName := n }) ∧
      (GoError.toolNotFound { ToolName := n }).Error = "tool not found: " ++ n ∧
      (tb.ExecuteTool n a).executed = []) ∧
    (∀ t, mapGet tb.tools n = some t →
      tb.HasTool n = true ∧
      (tb.ExecuteTool n a).result = (t.Execute a).1 ∧
      (tb.ExecuteTool n a).err = (t.Execute a).2 ∧
      (tb.ExecuteTool n a).executed = [(t, a)]) ∧
    (((tb.ExecuteTool n a).executed = [] ∧
        (tb.ExecuteTool n a).err = some (.toolNotFound { ToolName := n })) ↔
      tb.HasTool n = false) := by
  refine ⟨?_, ?_, ?_⟩
  · intro h
    rw [HasTool_eq_false_iff] at h
    simp [DefaultToolBox.ExecuteTool, h, GoError.Error, ToolNotFoundError.Error]
  · intro t h
    refine ⟨(HasTool_eq_true_iff tb n).2 ⟨t, h⟩, ?_⟩
    simp [DefaultToolBox.ExecuteTool, h]
  · rw [HasTool_eq_false_iff]
    cases h : mapGet tb.tools n with
    | none => simp [DefaultToolBox.ExecuteTool, h]
    | some t => simp [DefaultToolBox.ExecuteTool, h]

/-- C6, the claim as stated fails: in the toolbox that holds `lookupTool`,
`HasTool "lookup"` is true and yet `ExecuteTool "lookup"` returns a
`ToolNotFoundError` whose `ToolName` is "lookup", the error of the tool
itself, surfaced unchanged. -/
theorem ExecuteTool_not_found_with_registered_tool :
    (addAll [lookupTool]).HasTool "lookup" = true ∧
    ((addAll [lookupTool]).ExecuteTool "lookup" []).result = "" ∧
    ((addAll [lookupTool]).ExecuteTool "lookup" []).err =
      some (.toolNotFound { ToolName := "lookup" }) := by
  simp [addAll, NewDefaultToolBox, DefaultToolBox.AddTool, DefaultToolBox.HasTool,
    DefaultToolBox.ExecuteTool, mapSet, mapGet, lookupTool, NewBasicTool]

/-- C7.  For every toolbox and tools `a`, `b` that both report the name `n`:
after `AddTool a` then `AddTool b`, `ExecuteTool n args` executes `b` (and
nothing else) and returns what `b.Execute args` returns; the second `AddTool`
leaves the list of registered names, hence their number, unchanged; and for
every name `m` other than `n`, `HasTool m` and the whole outcome of
`ExecuteTool m args` are the same before and after `AddTool b`. -/
theorem AddTool_overwrites_same_name (tb : DefaultToolBox) (a b : Tool) (n m : String)
    (args : JSONMap) (ha : a.GetName = n) (hb : b.GetName = n) :
    (((tb.AddTool a).AddTool b).ExecuteTool n args).executed = [(b, args)] ∧
    (∀ t, (t, args) ∈ (((tb.AddTool a).AddTool b).ExecuteTool n args).executed → t = b) ∧
    (((tb.AddTool a).AddTool b).ExecuteTool n args).result = (b.Execute args).1 ∧
    (((tb.AddTool a).AddTool b).ExecuteTool n args).err = (b.Execute args).2 ∧
    ((tb.AddTool a).AddTool b).GetToolNames = (tb.AddTool a).GetToolNames ∧
    ((tb.AddTool a).AddTool b).GetToolNames.length = (tb.AddTool a).GetToolNames.length ∧
    (m ≠ n →
      ((tb.AddTool a).AddTool b).HasTool m = (tb.AddTool a).HasTool m ∧
      ((tb.AddTool a).AddTool b).ExecuteTool m args = (tb.AddTool a).ExecuteTool m args) := by
  subst ha
  have hget : mapGet ((tb.AddTool a).AddTool b).tools a.GetName = some b := by
    simp only [DefaultToolBox.AddTool, hb]
    exact mapGet_mapSet_self _ _ _
  have hmem : a.GetName ∈ (tb.AddTool a).tools.map Prod.fst := by
    simp only [DefaultToolBox.AddTool]
    exact (mem_keys_mapSet _ _ _ _).2 (Or.inl rfl)
  have hnames : ((tb.AddTool a).AddTool b).GetToolNames = (tb.AddTool a).GetToolNames := by
    rw [GetToolNames_eq_keys, GetToolNames_eq_keys]
    simp only [DefaultToolBox.AddTool, hb]
    exact keys_mapSet_of_mem _ _ _ hmem
  have hexec : (((tb.AddTool a).AddTool b).ExecuteTool a.GetName args).executed = [(b, args)] := by
    simp [DefaultToolBox.ExecuteTool, hget]
  refine ⟨hexec, ?_, ?_, ?_, hnames, by rw [hnames], ?_⟩
  · intro t ht
    rw [hexec] at ht
    simpa using ht
  · simp [DefaultToolBox.ExecuteTool, hget]
  · simp [DefaultToolBox.ExecuteTool, hget]
  · intro hne
    have hother : mapGet ((tb.AddTool a).AddTool b).tools m = mapGet (tb.AddTool a).tools m := by
      simp only [DefaultToolBox.AddTool, hb]
      exact mapGet_mapSet_ne _ _ _ _ hne
    simp [DefaultToolBox.HasTool, DefaultToolBox.ExecuteTool, hother]

/-- C7 at a concrete input: "echo" registered twice next to "clock". -/
theorem AddTool_overwrites_same_name_witness :
    echoTool.GetName = "echo" ∧ echoToolNew.GetName = "echo" ∧
    ((((addAll [clockTool]).AddTool echoTool).AddTool echoToolNew).ExecuteTool
      "echo" []).executed = [(echoToolNew, [])] ∧
    ((((addAll [clockTool]).AddTool echoTool).AddTool echoToolNew).ExecuteTool
      "echo" []).result = "second" :=
  have h := AddTool_overwrites_same_name (addAll [clockTool]) echoTool echoToolNew
    "echo" "clock" [] rfl rfl
  ⟨rfl, rfl, h.1, h.2.2.1⟩

/-- C8.  The empty toolbox has no names.  For every toolbox reached from it by
adding the tools `ts` in order, and every name `n`: `GetToolNames` has no
duplicates; `HasTool n` holds iff `n` occurs in `GetToolNames` iff some added
tool reports the name `n`; the tool stored under `n` reports the name `n`; and
reading the reported name off each stored tool gives `GetToolNames` back, so
names and stored tools correspond one to one. -/
theorem toolbox_names_bijective (ts : List Tool) (n : String) :
    NewDefaultToolBox.GetToolNames = [] ∧
    (∀ m, NewDefaultToolBox.HasTool m = false) ∧
    (addAll ts).GetToolNames.Nodup ∧
    ((addAll ts).HasTool n = true ↔ n ∈ (addAll ts).GetToolNames) ∧
    (n ∈ (addAll ts).GetToolNames ↔ ∃ t ∈ ts, t.GetName = n) ∧
    (∀ t, mapGet (addAll ts).tools n = some t → t.GetName = n) ∧
    (addAll ts).tools.map (fun entry => entry.2.GetName) = (addAll ts).GetToolNames := by
  obtain ⟨hnd, hname, hkeys⟩ := addAll_invariant ts
  refine ⟨rfl, fun m => rfl, ?_, ?_, ?_, ?_, ?_⟩
  · rw [GetToolNames_eq_keys]
    exact hnd
  · rw [GetToolNames_eq_keys]
    have h := mapGet_eq_none_iff (addAll ts).tools n
    cases hg : (addAll ts).HasTool n with
    | false =>
      have hnone := (HasTool_eq_false_iff _ _).1 hg
      simp [h.1 hnone]
    | true =>
      obtain ⟨t, ht⟩ := (HasTool_eq_true_iff _ _).1 hg
      have hin : n ∈ (addAll ts).tools.map Prod.fst :=
        List.mem_map.2 ⟨(n, t), mem_of_mapGet _ _ _ ht, rfl⟩
      simp [hin]
  · rw [GetToolNames_eq_keys]
    exact hkeys n
  · intro t ht
    exact hname (n, t) (mem_of_mapGet _ _ _ ht)
  · rw [GetToolNames_eq_keys]
    apply List.map_congr_left
    intro e he
    exact hname e he

/-- C9.  For every toolbox reached from the empty one by adding the tools `ts`:
`GetTools` has as many descriptors as `GetToolNames` has names; the descriptor
names, in order, are `GetToolNames`, so they are distinct and the two sets of
names are equal; every descriptor has type "function" and carries the name,
description and parameter schema reported by the tool registered under its
name; and every registered tool has its descriptor in `GetTools`. -/
theorem GetTools_describes_each_tool (ts : List Tool) :
    (addAll ts).GetTools.length = (addAll ts).GetToolNames.length ∧
    (addAll ts).GetTools.map (fun d => d.Function.Name) = (addAll ts).GetToolNames ∧
    ((addAll ts).GetTools.map (fun d => d.Function.Name)).Nodup ∧
    (∀ n, n ∈ (addAll ts).GetTools.map (fun d => d.Function.Name) ↔
      n ∈ (addAll ts).GetToolNames) ∧
    (∀ d ∈ (addAll ts).GetTools, ∃ t,
      mapGet (addAll ts).tools d.Function.Name = some t ∧
      d.ToolType = "function" ∧
      d.Function.Name = t.GetName ∧
      d.Function.Description = some t.GetDescription ∧
      d.Function.Parameters = some t.GetParameters) ∧
    (∀ n t, mapGet (addAll ts).tools n = some t →
      toolDescriptor t ∈ (addAll ts).GetTools ∧ (toolDescriptor t).Function.Name = n) := by
  obtain ⟨hnd, hname, hkeys⟩ := addAll_invariant ts
  have hnames : (addAll ts).GetTools.map (fun d => d.Function.Name) =
      (addAll ts).GetToolNames := by
    rw [GetTools_eq_map, GetToolNames_eq_keys, List.map_map]
    apply List.map_congr_left
    intro e he
    simp [toolDescriptor, hname e he]
  have hstored : ∀ e ∈ (addAll ts).tools, mapGet (addAll ts).tools e.1 = some e.2 := by
    intro e he
    cases hg : mapGet (addAll ts).tools e.1 with
    | none =>
      exact absurd (List.mem_map.2 ⟨e, he, rfl⟩) ((mapGet_eq_none_iff _ _).1 hg)
    | some t =>
      have hmem := mem_of_mapGet _ _ _ hg
      have := List.inj_on_of_nodup_map hnd hmem he rfl
      rw [← this]
  refine ⟨?_, hnames, ?_, ?_, ?_, ?_⟩
  · rw [GetTools_eq_map, GetToolNames_eq_keys]
    simp
  · rw [hnames, GetToolNames_eq_keys]
    exact hnd
  · intro n
    rw [hnames]
  · intro d hd
    rw [GetTools_eq_map] at hd
    obtain ⟨e, he, rfl⟩ := List.mem_map.1 hd
    refine ⟨e.2, ?_, rfl, rfl, rfl, rfl⟩
    have := hstored e he
    simpa [toolDescriptor, hname e he] using this
  · intro n t ht
    have hmem := mem_of_mapGet _ _ _ ht
    refine ⟨?_, ?_⟩
    · rw [GetTools_eq_map]
      exact List.mem_map.2 ⟨(n, t), hmem, rfl⟩
    · simpa [toolDescriptor] using hname (n, t) hmem

/-! ## Lemmas on traces -/

@[simp] theorem World.emit_trace (w : World) (e : Event) :
    (w.emit e).trace = w.trace ++ [e] := rfl

@[simp] theorem World.emit_taskQueue (w : World) (e : Event) :
    (w.emit e).taskQueue = w.taskQueue := rfl

@[simp] theorem World.emit_uuids (w : World) (e : Event) :
    (w.emit e).uuids = w.uuids := rfl

@[simp] theorem World.drawUUID_trace (w : World) : w.drawUUID.trace = w.trace := rfl

@[simp] theorem World.drawUUID_taskQueue (w : World) : w.drawUUID.taskQueue = w.taskQueue := rfl

@[simp] theorem World.enqueue_trace (w : World) (q : QueuedTask) :
    (w.enqueue q).trace = w.trace := rfl

@[simp] theorem World.enqueue_taskQueue (w : World) (q : QueuedTask) :
    (w.enqueue q).taskQueue = w.taskQueue ++ [q] := rfl

@[simp] theorem World.emit_receiver (w : World) (e : Event) :
    (w.emit e).receiver = w.receiver := rfl

@[simp] theorem World.drawUUID_receiver (w : World) : w.drawUUID.receiver = w.receiver := rfl

@[simp] theorem World.enqueue_receiver (w : World) (q : QueuedTask) :
    (w.enqueue q).receiver = w.receiver := rfl

@[simp] theorem World.handOver_trace (w : World) (q : QueuedTask) :
    (w.handOver q).trace = w.trace := rfl

@[simp] theorem World.handOver_taskQueue (w : World) (q : QueuedTask) :
    (w.handOver q).taskQueue = w.taskQueue := rfl

@[simp] theorem World.handOver_receiver (w : World) (q : QueuedTask) :
    (w.handOver q).receiver = .handed q := rfl

theorem not_parked_of_full (s : A2AServerImpl) (w : World)
    (hfull : s.maxSize ≤ w.taskQueue.length)
    (hidle : (0 < s.maxSize ∧ ChannelOK w) ∨ w.receiver ≠ .parked) :
    ¬ w.receiver = .parked := by
  rcases hidle with ⟨hpos, hok⟩ | h
  · intro hp
    have := hok hp
    rw [this] at hfull
    simp at hfull
    omega
  · exact h

theorem newEvents_of_trace (w w' : World) (evs : List Event)
    (h : w'.trace = w.trace ++ evs) : newEvents w w' = evs := by
  simp [newEvents, h]

/-! ## Admission: handleMessageSend on a full queue -/

/-- C1, as amended.  For every `message/send` request whose params decode and
for which `HandleMessageSend` returns a task without error: when the queue
already holds `maxSize` entries (or more) and the processor is not blocked in
its receive, which is always so when `maxSize` is positive, `handleMessageSend`
returns with the queue unchanged and nothing handed to the processor, and the
calls it makes are, in this order, `HandleMessageSend`, then
`UpdateTask(task.ID, failed, m)` for an assistant message `m` with a single
text part, then `SendSuccess` with the request id and that task.  No
`SendError` is among them. -/
theorem handleMessageSend_full_queue (s : A2AServerImpl) (req : JSONRPCRequest) (w : World)
    (paramsBytes : String) (params : MessageSendParams) (task : Task)
    (hm : s.marshal req.Params = .ok paramsBytes)
    (hu : s.unmarshalMessageSendParams paramsBytes = .ok params)
    (hh : s.HandleMessageSend w.trace params = (some task, none))
    (hfull : s.maxSize ≤ w.taskQueue.length)
    (hidle : (0 < s.maxSize ∧ ChannelOK w) ∨ w.receiver ≠ .parked) :
    (handleMessageSend s req w).taskQueue = w.taskQueue ∧
    (handleMessageSend s req w).receiver = w.receiver ∧
    ∃ m : Message,
      m.Kind = "message" ∧ m.Role = "assistant" ∧ (∃ text, m.Parts = [textPart text]) ∧
      newEvents w (handleMessageSend s req w) =
        [.HandleMessageSend params,
         .UpdateTask task.ID TaskStateFailed (some m),
         .SendSuccess req.ID (.task task)] ∧
      (∀ id code text, Event.SendError id code text ∉ newEvents w (handleMessageSend s req w)) := by
  have hlt : ¬ w.taskQueue.length < s.maxSize := Nat.not_lt.2 hfull
  have hnp : ¬ w.receiver = .parked := not_parked_of_full s w hfull hidle
  have htrace : (handleMessageSend s req w).trace = w.trace ++
      [.HandleMessageSend params,
       .UpdateTask task.ID TaskStateFailed
        (some (assistantTextMessage (s.uuid w.uuids)
          "Task queue is full. Please try again later.")),
       .SendSuccess req.ID (.task task)] := by
    simp [handleMessageSend, hm, hu, hh, hlt, hnp]
  have hnew := newEvents_of_trace _ _ _ htrace
  refine ⟨?_, ?_, assistantTextMessage (s.uuid w.uuids)
    "Task queue is full. Please try again later.", rfl, rfl, ⟨_, rfl⟩, hnew, ?_⟩
  · simp [handleMessageSend, hm, hu, hh, hlt, hnp]
  · simp [handleMessageSend, hm, hu, hh, hlt, hnp]
  · intro id code text
    rw [hnew]
    simp

/-- C1 at a concrete input: `echoServer` with its queue of capacity one
already holding an entry. -/
theorem handleMessageSend_full_queue_witness :
    (handleMessageSend echoServer sendRequest busyWorld).taskQueue = busyWorld.taskQueue ∧
    (handleMessageSend echoServer sendRequest busyWorld).receiver = busyWorld.receiver ∧
    ∃ m : Message,
      m.Kind = "message" ∧ m.Role = "assistant" ∧ (∃ text, m.Parts = [textPart text]) ∧
      newEvents busyWorld (handleMessageSend echoServer sendRequest busyWorld) =
        [.HandleMessageSend { Message := helloMessage },
         .UpdateTask helloTask.ID TaskStateFailed (some m),
         .SendSuccess sendRequest.ID (.task helloTask)] ∧
      (∀ id code text, Event.SendError id code text ∉
        newEvents busyWorld (handleMessageSend echoServer sendRequest busyWorld)) :=
  handleMessageSend_full_queue echoServer sendRequest busyWorld "\x7b\x7d"
    { Message := helloMessage } helloTask rfl rfl rfl (by decide)
    (Or.inr (by decide))

/-- C1, the claim as stated fails.  `unbufferedServer` has a queue of
capacity zero, so the queue always holds `maxSize` entries.  Its processor
took a turn on the empty queue and is blocked in its receive.  A
`message/send` then hands its entry to the processor: the calls are
`HandleMessageSend` and `SendSuccess`, and no `UpdateTask` is made. -/
theorem handleMessageSend_unbuffered_hand_over :
    unbufferedServer.maxSize ≤ parkedWorld.taskQueue.length ∧
    processorStep unbufferedServer emptyWorld = parkedWorld ∧
    newEvents parkedWorld (handleMessageSend unbufferedServer sendRequest parkedWorld) =
      [.HandleMessageSend { Message := helloMessage },
       .SendSuccess (some (.num 1)) (.task helloTask)] ∧
    (handleMessageSend unbufferedServer sendRequest parkedWorld).receiver =
      .handed { Task := some helloTask, RequestID := some (.num 1) } := by
  refine ⟨by decide, rfl, ?_, ?_⟩
  · have htrace : (handleMessageSend unbufferedServer sendRequest parkedWorld).trace =
        parkedWorld.trace ++
          [.HandleMessageSend { Message := helloMessage },
           .SendSuccess (some (.num 1)) (.task helloTask)] := by
      simp [handleMessageSend, unbufferedServer, echoServer, sendRequest, parkedWorld]
    exact newEvents_of_trace _ _ _ htrace
  · simp [handleMessageSend, unbufferedServer, echoServer, sendRequest, parkedWorld]

/-! ## The task processor: processQueuedTask -/

/-- C3.  For every dequeued task: when its status message is present, every
message `processQueuedTask` hands to the task handler is that message itself
(same id, role and parts, in order), together with the dequeued task; when it
is absent, every message handed over has kind "message", role "user" and no
parts.  The handler is invoked, once, whenever the update to working
succeeded. -/
theorem processQueuedTask_hands_status_message (s : A2AServerImpl) (task : Task)
    (rid : Option IDValue) (w : World) :
    (∀ msg, task.Status.Message = some msg →
      ∀ t m, Event.HandleTask t m ∈
          newEvents w (processQueuedTask s { Task := some task, RequestID := rid } w) →
        t = some task ∧ m = some msg ∧
        (∀ msg', m = some msg' → msg'.MessageID = msg.MessageID ∧ msg'.Role = msg.Role ∧
          msg'.Parts = msg.Parts)) ∧
    (task.Status.Message = none →
      ∀ t m, Event.HandleTask t m ∈
          newEvents w (processQueuedTask s { Task := some task, RequestID := rid } w) →
        t = some task ∧
        ∃ msg, m = some msg ∧ msg.Kind = "message" ∧ msg.Role = "user" ∧ msg.Parts = []) ∧
    (s.UpdateTask w.trace task.ID TaskStateWorking none = none →
      ∃ m, (newEvents w (processQueuedTask s { Task := some task, RequestID := rid } w)).filter
          (fun e => match e with
            | .HandleTask _ _ => true
            | _ => false) = [.HandleTask (some task) (some m)]) := by
  refine ⟨?_, ?_, ?_⟩
  · intro msg hmsg t m hmem
    have hq : queuedMessage s task w = msg := by simp [queuedMessage, hmsg]
    have : t = some task ∧ m = some msg := by
      revert hmem
      unfold processQueuedTask
      simp only [hq, hmsg]
      repeat' split
      all_goals simp [newEvents]
    refine ⟨this.1, this.2, ?_⟩
    intro msg' hm'
    rw [this.2] at hm'
    cases hm'
    exact ⟨rfl, rfl, rfl⟩
  · intro hmsg t m hmem
    have hq : queuedMessage s task w = emptyUserMessage (s.uuid w.uuids) := by
      simp [queuedMessage, hmsg]
    have : t = some task ∧ m = some (emptyUserMessage (s.uuid w.uuids)) := by
      revert hmem
      unfold processQueuedTask
      simp only [hq, hmsg]
      repeat' split
      all_goals simp [newEvents]
    exact ⟨this.1, _, this.2, rfl, rfl, rfl⟩
  · intro hw
    refine ⟨queuedMessage s task w, ?_⟩
    unfold processQueuedTask
    cases hmsg : task.Status.Message <;>
      simp only [hw, hmsg, World.drawUUID_trace] <;>
      repeat' split
    all_goals simp [newEvents]

/-- C3 at concrete inputs: `echoServer` processing `helloTask`, whose status
message is `helloMessage`, hands exactly that message to the handler. -/
theorem processQueuedTask_hands_status_message_witness :
    (newEvents emptyWorld
        (processQueuedTask echoServer { Task := some helloTask, RequestID := none } emptyWorld)).filter
      (fun e => match e with
        | .HandleTask _ _ => true
        | _ => false) = [.HandleTask (some helloTask) (some helloMessage)] := by
  obtain ⟨hpresent, _, hcalled⟩ :=
    processQueuedTask_hands_status_message echoServer helloTask none emptyWorld
  obtain ⟨m, hm⟩ := hcalled rfl
  have hmem : Event.HandleTask (some helloTask) (some m) ∈
      newEvents emptyWorld
        (processQueuedTask echoServer { Task := some helloTask, RequestID := none } emptyWorld) := by
    have : Event.HandleTask (some helloTask) (some m) ∈
        [Event.HandleTask (some helloTask) (some m)] := by simp
    rw [← hm] at this
    exact (List.mem_filter.1 this).1
  have heq := (hpresent helloMessage rfl _ _ hmem).2.1
  rw [hm, heq]

/-- C4.  For every dequeued task with id `i` whose update to working
succeeded: when the task handler returns an error `e`, the calls of
`processQueuedTask` are the update to working, the handler call, and
`UpdateTask(i, failed, m)` where `m` has kind "message", role "assistant" and
exactly one part, the text part with the text of `e`; so the registry sees
exactly one further call, and no update carries the handler's returned
state. -/
theorem processQueuedTask_handler_error (s : A2AServerImpl) (task : Task)
    (rid : Option IDValue) (w : World) (returned : Option Task) (e : GoError)
    (hw : s.UpdateTask w.trace task.ID TaskStateWorking none = none)
    (he : s.taskHandler (w.trace ++ [.UpdateTask task.ID TaskStateWorking none])
      (some task) (some (queuedMessage s task w)) = (returned, some e)) :
    ∃ m : Message,
      m.Kind = "message" ∧ m.Role = "assistant" ∧ m.Parts = [textPart e.Error] ∧
      newEvents w (processQueuedTask s { Task := some task, RequestID := rid } w) =
        [.UpdateTask task.ID TaskStateWorking none,
         .HandleTask (some task) (some (queuedMessage s task w)),
         .UpdateTask task.ID TaskStateFailed (some m)] ∧
      registryCalls
          (newEvents w (processQueuedTask s { Task := some task, RequestID := rid } w)) =
        [.UpdateTask task.ID TaskStateWorking none,
         .UpdateTask task.ID TaskStateFailed (some m)] := by
  cases hmsg : task.Status.Message with
  | none =>
    have htrace : (processQueuedTask s { Task := some task, RequestID := rid } w).trace =
        w.trace ++
        [.UpdateTask task.ID TaskStateWorking none,
         .HandleTask (some task) (some (queuedMessage s task w)),
         .UpdateTask task.ID TaskStateFailed
          (some (assistantTextMessage (s.uuid (w.uuids + 1)) e.Error))] := by
      simp [processQueuedTask, hmsg, hw, he, World.drawUUID]
    have hnew := newEvents_of_trace _ _ _ htrace
    refine ⟨assistantTextMessage (s.uuid (w.uuids + 1)) e.Error, rfl, rfl, rfl, hnew, ?_⟩
    rw [hnew]
    simp [registryCalls]
  | some msg =>
    have htrace : (processQueuedTask s { Task := some task, RequestID := rid } w).trace =
        w.trace ++
        [.UpdateTask task.ID TaskStateWorking none,
         .HandleTask (some task) (some (queuedMessage s task w)),
         .UpdateTask task.ID TaskStateFailed
          (some (assistantTextMessage (s.uuid w.uuids) e.Error))] := by
      simp [processQueuedTask, hmsg, hw, he, World.drawUUID]
    have hnew := newEvents_of_trace _ _ _ htrace
    refine ⟨assistantTextMessage (s.uuid w.uuids) e.Error, rfl, rfl, rfl, hnew, ?_⟩
    rw [hnew]
    simp [registryCalls]

/-- C4 at a concrete input: `failingServer` processing `helloTask`. -/
theorem processQueuedTask_handler_error_witness :
    ∃ m : Message,
      m.Kind = "message" ∧ m.Role = "assistant" ∧
      m.Parts = [textPart "provider unavailable"] ∧
      newEvents emptyWorld
          (processQueuedTask failingServer { Task := some helloTask, RequestID := none }
            emptyWorld) =
        [.UpdateTask "task-456" TaskStateWorking none,
         .HandleTask (some helloTask) (some helloMessage),
         .UpdateTask "task-456" TaskStateFailed (some m)] ∧
      registryCalls
          (newEvents emptyWorld
            (processQueuedTask failingServer { Task := some helloTask, RequestID := none }
              emptyWorld)) =
        [.UpdateTask "task-456" TaskStateWorking none,
         .UpdateTask "task-456" TaskStateFailed (some m)] :=
  processQueuedTask_handler_error failingServer helloTask none emptyWorld none
    (.other "provider unavailable") rfl rfl

/-- C5, what the code does at the failing input.  `fixedReplyServer`
processes the dequeued task "task-456"; its handler returns, without error, a
completed task whose id is "test-task".  The final registry call is
`UpdateTask("test-task", completed, nil)`: it is addressed to the id of the
returned task, not to "task-456", which is left in the working state. -/
theorem processQueuedTask_updates_returned_task_id :
    newEvents emptyWorld
        (processQueuedTask fixedReplyServer { Task := some helloTask, RequestID := none }
          emptyWorld) =
      [.UpdateTask "task-456" TaskStateWorking none,
       .HandleTask (some helloTask) (some helloMessage),
       .UpdateTask "test-task" .completed none] ∧
    Event.UpdateTask "task-456" .completed none ∉
      newEvents emptyWorld
        (processQueuedTask fixedReplyServer { Task := some helloTask, RequestID := none }
          emptyWorld) := by
  have htrace : (processQueuedTask fixedReplyServer { Task := some helloTask, RequestID := none }
      emptyWorld).trace = emptyWorld.trace ++
      [.UpdateTask "task-456" TaskStateWorking none,
       .HandleTask (some helloTask) (some helloMessage),
       .UpdateTask "test-task" .completed none] := by
    simp [processQueuedTask, fixedReplyServer, echoServer, helloTask, queuedMessage, emptyWorld]
  have hnew := newEvents_of_trace _ _ _ htrace
  rw [hnew]
  refine ⟨rfl, ?_⟩
  simp [TaskStateWorking]

/-! ## The router: one reply per request, with the request's id -/

theorem newEvents_same_trace (w w0 w' : World) (h : w0.trace = w.trace) :
    newEvents w w' = newEvents w0 w' := by
  simp [newEvents, h]

theorem handleMessageSend_sender_once (s : A2AServerImpl) (req : JSONRPCRequest) (w : World)
    (hSend : ∀ h p, (s.HandleMessageSend h p).2 = none → (s.HandleMessageSend h p).1 ≠ none) :
    (senderCalls (newEvents w (handleMessageSend s req w))).length = 1 := by
  cases hm : s.marshal req.Params with
  | error e => simp [handleMessageSend, hm, newEvents, senderCalls]
  | ok paramsBytes =>
    cases hu : s.unmarshalMessageSendParams paramsBytes with
    | error e => simp [handleMessageSend, hm, hu, newEvents, senderCalls]
    | ok params =>
      cases h2 : (s.HandleMessageSend w.trace params).2 with
      | some err => simp [handleMessageSend, hm, hu, h2, newEvents, senderCalls]
      | none =>
        cases h1 : (s.HandleMessageSend w.trace params).1 with
        | none => exact absurd h1 (hSend _ _ h2)
        | some task =>
          by_cases hq : w.taskQueue.length < s.maxSize <;>
            by_cases hp : w.receiver = .parked <;>
              simp [handleMessageSend, hm, hu, h1, h2, hq, hp, newEvents, senderCalls]

theorem handleMessageStream_sender_once (s : A2AServerImpl) (req : JSONRPCRequest) (w : World) :
    (senderCalls (newEvents w (handleMessageStream s req w))).length = 1 := by
  cases hm : s.marshal req.Params with
  | error e => simp [handleMessageStream, hm, newEvents, senderCalls]
  | ok paramsBytes =>
    cases hu : s.unmarshalMessageSendParams paramsBytes with
    | error e => simp [handleMessageStream, hm, hu, newEvents, senderCalls]
    | ok params =>
      cases h : s.HandleMessageStream w.trace params <;>
        simp [handleMessageStream, hm, hu, h, newEvents, senderCalls]

theorem handleTaskGet_sender_once (s : A2AServerImpl) (req : JSONRPCRequest) (w : World)
    (hGet : ∀ h i, (s.GetTask h i).2 = true → (s.GetTask h i).1 ≠ none) :
    (senderCalls (newEvents w (handleTaskGet s req w))).length = 1 := by
  cases hm : s.marshal req.Params with
  | error e => simp [handleTaskGet, hm, newEvents, senderCalls]
  | ok paramsBytes =>
    cases hu : s.unmarshalTaskQueryParams paramsBytes with
    | error e => simp [handleTaskGet, hm, hu, newEvents, senderCalls]
    | ok params =>
      cases h2 : (s.GetTask w.trace params.ID).2 with
      | false => simp [handleTaskGet, hm, hu, h2, newEvents, senderCalls]
      | true =>
        cases h1 : (s.GetTask w.trace params.ID).1 with
        | none => exact absurd h1 (hGet _ _ h2)
        | some task => simp [handleTaskGet, hm, hu, h1, h2, newEvents, senderCalls]

theorem handleTaskCancel_sender_once (s : A2AServerImpl) (req : JSONRPCRequest) (w : World)
    (hCancel : ∀ h i, s.CancelTask h i = none → (s.GetTask (h ++ [.CancelTask i]) i).1 ≠ none) :
    (senderCalls (newEvents w (handleTaskCancel s req w))).length = 1 := by
  cases hm : s.marshal req.Params with
  | error e => simp [handleTaskCancel, hm, newEvents, senderCalls]
  | ok paramsBytes =>
    cases hu : s.unmarshalTaskIdParams paramsBytes with
    | error e => simp [handleTaskCancel, hm, hu, newEvents, senderCalls]
    | ok params =>
      cases hc : s.CancelTask w.trace params.ID with
      | some err => simp [handleTaskCancel, hm, hu, hc, newEvents, senderCalls]
      | none =>
        cases h1 : (s.GetTask (w.trace ++ [.CancelTask params.ID]) params.ID).1 with
        | none => exact absurd h1 (hCancel _ _ hc)
        | some task => simp [handleTaskCancel, hm, hu, hc, h1, newEvents, senderCalls]

theorem handleMessageSend_sender_id (s : A2AServerImpl) (req : JSONRPCRequest) (w : World) :
    ∀ e ∈ newEvents w (handleMessageSend s req w), ∀ x, e.senderID = some x → x = req.ID := by
  cases hm : s.marshal req.Params with
  | error e => simp [handleMessageSend, hm, newEvents, Event.senderID]
  | ok paramsBytes =>
    cases hu : s.unmarshalMessageSendParams paramsBytes with
    | error e => simp [handleMessageSend, hm, hu, newEvents, Event.senderID]
    | ok params =>
      cases h2 : (s.HandleMessageSend w.trace params).2 with
      | some err => simp [handleMessageSend, hm, hu, h2, newEvents, Event.senderID]
      | none =>
        cases h1 : (s.HandleMessageSend w.trace params).1 <;>
          by_cases hq : w.taskQueue.length < s.maxSize <;>
            by_cases hp : w.receiver = .parked <;>
              simp [handleMessageSend, hm, hu, h1, h2, hq, hp, newEvents, Event.senderID]

theorem handleMessageStream_sender_id (s : A2AServerImpl) (req : JSONRPCRequest) (w : World) :
    ∀ e ∈ newEvents w (handleMessageStream s req w), ∀ x, e.senderID = some x → x = req.ID := by
  cases hm : s.marshal req.Params with
  | error e => simp [handleMessageStream, hm, newEvents, Event.senderID]
  | ok paramsBytes =>
    cases hu : s.unmarshalMessageSendParams paramsBytes with
    | error e => simp [handleMessageStream, hm, hu, newEvents, Event.senderID]
    | ok params =>
      cases h : s.HandleMessageStream w.trace params <;>
        simp [handleMessageStream, hm, hu, h, newEvents, Event.senderID]

theorem handleTaskGet_sender_id (s : A2AServerImpl) (req : JSONRPCRequest) (w : World) :
    ∀ e ∈ newEvents w (handleTaskGet s req w), ∀ x, e.senderID = some x → x = req.ID := by
  cases hm : s.marshal req.Params with
  | error e => simp [handleTaskGet, hm, newEvents, Event.senderID]
  | ok paramsBytes =>
    cases hu : s.unmarshalTaskQueryParams paramsBytes with
    | error e => simp [handleTaskGet, hm, hu, newEvents, Event.senderID]
    | ok params =>
      cases h2 : (s.GetTask w.trace params.ID).2 <;>
        cases h1 : (s.GetTask w.trace params.ID).1 <;>
          simp [handleTaskGet, hm, hu, h1, h2, newEvents, Event.senderID]

theorem handleTaskCancel_sender_id (s : A2AServerImpl) (req : JSONRPCRequest) (w : World) :
    ∀ e ∈ newEvents w (handleTaskCancel s req w), ∀ x, e.senderID = some x → x = req.ID := by
  cases hm : s.marshal req.Params with
  | error e => simp [handleTaskCancel, hm, newEvents, Event.senderID]
  | ok paramsBytes =>
    cases hu : s.unmarshalTaskIdParams paramsBytes with
    | error e => simp [handleTaskCancel, hm, hu, newEvents, Event.senderID]
    | ok params =>
      cases hc : s.CancelTask w.trace params.ID with
      | some err => simp [handleTaskCancel, hm, hu, hc, newEvents, Event.senderID]
      | none =>
        cases h1 : (s.GetTask (w.trace ++ [.CancelTask params.ID]) params.ID).1 <;>
          simp [handleTaskCancel, hm, hu, hc, h1, newEvents, Event.senderID]

theorem dispatch_sender_id (s : A2AServerImpl) (req : JSONRPCRequest) (w : World) :
    ∀ e ∈ newEvents w (dispatch s req w), ∀ x, e.senderID = some x → x = req.ID := by
  unfold dispatch
  split
  · exact handleMessageSend_sender_id s req w
  split
  · exact handleMessageStream_sender_id s req w
  split
  · exact handleTaskGet_sender_id s req w
  split
  · exact handleTaskCancel_sender_id s req w
  · simp [newEvents, Event.senderID]

theorem dispatch_sender_once (s : A2AServerImpl) (req : JSONRPCRequest) (w : World)
    (hSend : ∀ h p, (s.HandleMessageSend h p).2 = none → (s.HandleMessageSend h p).1 ≠ none)
    (hGet : ∀ h i, (s.GetTask h i).2 = true → (s.GetTask h i).1 ≠ none)
    (hCancel : ∀ h i, s.CancelTask h i = none → (s.GetTask (h ++ [.CancelTask i]) i).1 ≠ none) :
    (senderCalls (newEvents w (dispatch s req w))).length = 1 := by
  unfold dispatch
  split
  · exact handleMessageSend_sender_once s req w hSend
  split
  · exact handleMessageStream_sender_once s req w
  split
  · exact handleTaskGet_sender_once s req w hGet
  split
  · exact handleTaskCancel_sender_once s req w hCancel
  · simp [newEvents, senderCalls]

theorem applyDefaults_ID_some (s : A2AServerImpl) (req : JSONRPCRequest) (w : World)
    (id : IDValue) (hid : req.ID = some id) : (applyDefaults s req w).ID = some id := by
  by_cases hj : req.JSONRPC = "" <;> simp [applyDefaults, hj, hid]

theorem applyDefaults_ID_none (s : A2AServerImpl) (req : JSONRPCRequest) (w : World)
    (hid : req.ID = none) :
    (applyDefaults s req w).ID = some (.str (s.uuid w.uuids)) := by
  by_cases hj : req.JSONRPC = "" <;> simp [applyDefaults, hj, hid]

/-- C2, as amended.  For every request body and every behaviour of the message
handler and the task registry in which a task reported as created or found is
not nil (`HandleMessageSend` with a nil error returns a task, `GetTask` with
`exists` true returns a task, and `GetTask` after a successful `CancelTask` of
the same id returns a task): handling one request through `handleA2ARequest`
calls the response sender exactly once, so exactly one of `SendSuccess` and
`SendError` is called. -/
theorem handleA2ARequest_replies_once (s : A2AServerImpl) (body : String) (w : World)
    (hSend : ∀ h p, (s.HandleMessageSend h p).2 = none → (s.HandleMessageSend h p).1 ≠ none)
    (hGet : ∀ h i, (s.GetTask h i).2 = true → (s.GetTask h i).1 ≠ none)
    (hCancel : ∀ h i, s.CancelTask h i = none → (s.GetTask (h ++ [.CancelTask i]) i).1 ≠ none) :
    (senderCalls (newEvents w (handleA2ARequest s body w))).length = 1 := by
  cases hb : (s.bindJSON body).2 with
  | some err => simp [handleA2ARequest, hb, newEvents, senderCalls]
  | none =>
    cases hid : (s.bindJSON body).1.ID with
    | none =>
      have hrun : handleA2ARequest s body w =
          dispatch s (applyDefaults s (s.bindJSON body).1 w) w.drawUUID := by
        simp [handleA2ARequest, hb, hid]
      rw [hrun, newEvents_same_trace w w.drawUUID _ rfl]
      exact dispatch_sender_once s _ _ hSend hGet hCancel
    | some id =>
      have hrun : handleA2ARequest s body w =
          dispatch s (applyDefaults s (s.bindJSON body).1 w) w := by
        simp [handleA2ARequest, hb, hid]
      rw [hrun]
      exact dispatch_sender_once s _ _ hSend hGet hCancel

/-- C2 at a concrete input: `echoServer` answers the seed request once. -/
theorem handleA2ARequest_replies_once_witness :
    (senderCalls (newEvents emptyWorld
      (handleA2ARequest echoServer "seed scenario 1" emptyWorld))).length = 1 :=
  handleA2ARequest_replies_once echoServer "seed scenario 1" emptyWorld
    (by intro h p; simp [echoServer])
    (by
      intro h i
      by_cases hi : i = "task-456" <;> simp [echoServer, hi])
    (by
      intro h i
      by_cases hi : i = "task-456" <;> simp [echoServer, hi])

/-- C2, the claim as stated fails: with a message handler that returns a nil
task and a nil error, `handleA2ARequest` enqueues the entry, dereferences the
nil task and panics; neither `SendSuccess` nor `SendError` is called. -/
theorem handleA2ARequest_no_reply_on_nil_task :
    newEvents emptyWorld (handleA2ARequest nilTaskServer "seed scenario 1" emptyWorld) =
      [.HandleMessageSend { Message := helloMessage }, .nilDeref] ∧
    senderCalls (newEvents emptyWorld
      (handleA2ARequest nilTaskServer "seed scenario 1" emptyWorld)) = [] := by
  have htrace : (handleA2ARequest nilTaskServer "seed scenario 1" emptyWorld).trace =
      emptyWorld.trace ++ [.HandleMessageSend { Message := helloMessage }, .nilDeref] := by
    simp [handleA2ARequest, applyDefaults, dispatch, handleMessageSend, nilTaskServer,
      echoServer, sendRequest, emptyWorld]
  rw [newEvents_of_trace _ _ _ htrace]
  simp [senderCalls]

theorem excessBits_of_small (a : Nat) (h : a < 2 ^ 53) : excessBits 1024 a = 0 := by
  rw [show (1024 : Nat) = 1023 + 1 from rfl, excessBits]
  rw [if_pos h]

theorem nearestFloat64_of_small (n : Int) (h : n.natAbs < 2 ^ 53) : nearestFloat64 n = n := by
  unfold nearestFloat64
  simp only [excessBits_of_small _ h]
  by_cases hn : n < 0
  · simp [hn, abs_of_neg hn]
  · simp [hn, abs_of_nonneg (not_lt.1 hn)]

/-- Integers of magnitude at most 2^53 are float64 values. -/
theorem nearestFloat64_exact (n : Int) (h : n.natAbs ≤ 2 ^ 53) : nearestFloat64 n = n := by
  rcases Nat.lt_or_eq_of_le h with h1 | h1
  · exact nearestFloat64_of_small n h1
  · rcases Int.natAbs_eq n with h2 | h2
    · rw [h2, h1]; decide
    · rw [h2, h1]; decide

theorem handleMessageSend_reply_or_panic (s : A2AServerImpl) (req : JSONRPCRequest)
    (w : World) :
    (∃ e, senderCalls (newEvents w (handleMessageSend s req w)) = [e] ∧
      e.senderID = some req.ID) ∨
    (panicked (newEvents w (handleMessageSend s req w)) = true ∧
      senderCalls (newEvents w (handleMessageSend s req w)) = []) := by
  cases hm : s.marshal req.Params with
  | error e => simp [handleMessageSend, hm, newEvents, senderCalls, Event.senderID]
  | ok paramsBytes =>
    cases hu : s.unmarshalMessageSendParams paramsBytes with
    | error e => simp [handleMessageSend, hm, hu, newEvents, senderCalls, Event.senderID]
    | ok params =>
      cases h2 : (s.HandleMessageSend w.trace params).2 with
      | some err =>
        simp [handleMessageSend, hm, hu, h2, newEvents, senderCalls, Event.senderID]
      | none =>
        cases h1 : (s.HandleMessageSend w.trace params).1 <;>
          by_cases hq : w.taskQueue.length < s.maxSize <;>
            by_cases hp : w.receiver = .parked <;>
              simp [handleMessageSend, hm, hu, h1, h2, hq, hp, newEvents, senderCalls,
                Event.senderID, panicked]

theorem handleMessageStream_reply_or_panic (s : A2AServerImpl) (req : JSONRPCRequest)
    (w : World) :
    (∃ e, senderCalls (newEvents w (handleMessageStream s req w)) = [e] ∧
      e.senderID = some req.ID) ∨
    (panicked (newEvents w (handleMessageStream s req w)) = true ∧
      senderCalls (newEvents w (handleMessageStream s req w)) = []) := by
  cases hm : s.marshal req.Params with
  | error e => simp [handleMessageStream, hm, newEvents, senderCalls, Event.senderID]
  | ok paramsBytes =>
    cases hu : s.unmarshalMessageSendParams paramsBytes with
    | error e => simp [handleMessageStream, hm, hu, newEvents, senderCalls, Event.senderID]
    | ok params =>
      cases h : s.HandleMessageStream w.trace params <;>
        simp [handleMessageStream, hm, hu, h, newEvents, senderCalls, Event.senderID]

theorem handleTaskGet_reply_or_panic (s : A2AServerImpl) (req : JSONRPCRequest) (w : World) :
    (∃ e, senderCalls (newEvents w (handleTaskGet s req w)) = [e] ∧
      e.senderID = some req.ID) ∨
    (panicked (newEvents w (handleTaskGet s req w)) = true ∧
      senderCalls (newEvents w (handleTaskGet s req w)) = []) := by
  cases hm : s.marshal req.Params with
  | error e => simp [handleTaskGet, hm, newEvents, senderCalls, Event.senderID]
  | ok paramsBytes =>
    cases hu : s.unmarshalTaskQueryParams paramsBytes with
    | error e => simp [handleTaskGet, hm, hu, newEvents, senderCalls, Event.senderID]
    | ok params =>
      cases h2 : (s.GetTask w.trace params.ID).2 <;>
        cases h1 : (s.GetTask w.trace params.ID).1 <;>
          simp [handleTaskGet, hm, hu, h1, h2, newEvents, senderCalls, Event.senderID,
            panicked]

theorem handleTaskCancel_reply_or_panic (s : A2AServerImpl) (req : JSONRPCRequest)
    (w : World) :
    (∃ e, senderCalls (newEvents w (handleTaskCancel s req w)) = [e] ∧
      e.senderID = some req.ID) ∨
    (panicked (newEvents w (handleTaskCancel s req w)) = true ∧
      senderCalls (newEvents w (handleTaskCancel s req w)) = []) := by
  cases hm : s.marshal req.Params with
  | error e => simp [handleTaskCancel, hm, newEvents, senderCalls, Event.senderID]
  | ok paramsBytes =>
    cases hu : s.unmarshalTaskIdParams paramsBytes with
    | error e => simp [handleTaskCancel, hm, hu, newEvents, senderCalls, Event.senderID]
    | ok params =>
      cases hc : s.CancelTask w.trace params.ID with
      | some err =>
        simp [handleTaskCancel, hm, hu, hc, newEvents, senderCalls, Event.senderID]
      | none =>
        cases h1 : (s.GetTask (w.trace ++ [.CancelTask params.ID]) params.ID).1 <;>
          simp [handleTaskCancel, hm, hu, hc, h1, newEvents, senderCalls, Event.senderID,
            panicked]

/-- Every run of `dispatch` makes exactly one call to the response sender,
with the id of the request, unless it panics on a nil task before replying. -/
theorem dispatch_reply_or_panic (s : A2AServerImpl) (req : JSONRPCRequest) (w : World) :
    (∃ e, senderCalls (newEvents w (dispatch s req w)) = [e] ∧ e.senderID = some req.ID) ∨
    (panicked (newEvents w (dispatch s req w)) = true ∧
      senderCalls (newEvents w (dispatch s req w)) = []) := by
  unfold dispatch
  split
  · exact handleMessageSend_reply_or_panic s req w
  split
  · exact handleMessageStream_reply_or_panic s req w
  split
  · exact handleTaskGet_reply_or_panic s req w
  split
  · exact handleTaskCancel_reply_or_panic s req w
  · simp [newEvents, senderCalls, Event.senderID]

/-- C10, as amended.  For every envelope `req` that the router decodes from a
body: the request handed to the method handlers has `JSONRPC` "2.0" when
`req.JSONRPC` is empty, and the method and params of `req`; when `req` carries
an id, every call to the response sender passes that id as decoded; when it
carries none, every call passes one and the same synthesised string id, which
is not empty.  The router makes exactly one call to the response sender, with
that id, unless a handler panics on a nil task, and then it makes none.  With
respect to the id on the wire: a string id is passed as the same string; an
integer id is passed as a number whose value is the float64 nearest to it,
which is the same value when its magnitude is at most 2^53. -/
theorem handleA2ARequest_echoes_request_id (s : A2AServerImpl) (body : String) (w : World)
    (req : JSONRPCRequest) (hb : s.bindJSON body = (req, none))
    (huuid : s.uuid w.uuids ≠ "") :
    (∀ id, req.ID = some id →
      ∀ e ∈ newEvents w (handleA2ARequest s body w), ∀ x, e.senderID = some x → x = some id) ∧
    (req.ID = none →
      ∃ fresh : String, fresh ≠ "" ∧
        ∀ e ∈ newEvents w (handleA2ARequest s body w), ∀ x,
          e.senderID = some x → x = some (.str fresh)) ∧
    (∃ w0 : World, w0.trace = w.trace ∧ w0.taskQueue = w.taskQueue ∧
      handleA2ARequest s body w = dispatch s (applyDefaults s req w) w0) ∧
    (req.JSONRPC = "" → (applyDefaults s req w).JSONRPC = "2.0") ∧
    (req.JSONRPC ≠ "" → (applyDefaults s req w).JSONRPC = req.JSONRPC) ∧
    (applyDefaults s req w).Method = req.Method ∧
    (applyDefaults s req w).Params = req.Params ∧
    ((∃ e, senderCalls (newEvents w (handleA2ARequest s body w)) = [e] ∧
        e.senderID = some (applyDefaults s req w).ID) ∨
      (panicked (newEvents w (handleA2ARequest s body w)) = true ∧
        senderCalls (newEvents w (handleA2ARequest s body w)) = [])) ∧
    (applyDefaults s req w).ID ≠ none ∧
    (∀ text, req.ID = decodeID (.str text) →
      ∀ e ∈ newEvents w (handleA2ARequest s body w), ∀ x,
        e.senderID = some x → x = some (.str text)) ∧
    (∀ n, req.ID = decodeID (.int n) →
      ∀ e ∈ newEvents w (handleA2ARequest s body w), ∀ x,
        e.senderID = some x → x = some (.num ((nearestFloat64 n : Int) : Rat))) ∧
    (∀ n, req.ID = decodeID (.int n) → n.natAbs ≤ 2 ^ 53 →
      ∀ e ∈ newEvents w (handleA2ARequest s body w), ∀ x,
        e.senderID = some x → x = some (.num ((n : Int) : Rat))) := by
  have hsome : ∀ id, req.ID = some id →
      ∀ e ∈ newEvents w (handleA2ARequest s body w), ∀ x, e.senderID = some x → x = some id := by
    intro id hid e he x hx
    have hrun : handleA2ARequest s body w = dispatch s (applyDefaults s req w) w := by
      simp [handleA2ARequest, hb, hid]
    have hreq : (applyDefaults s req w).ID = some id := applyDefaults_ID_some s req w id hid
    rw [hrun] at he
    rw [← hreq]
    exact dispatch_sender_id s _ w e he x hx
  refine ⟨hsome, ?_, ?_, ?_, ?_, ?_, ?_, ?_, ?_, ?_, ?_, ?_⟩
  · intro hid
    refine ⟨s.uuid w.uuids, huuid, ?_⟩
    intro e he x hx
    have hrun : handleA2ARequest s body w = dispatch s (applyDefaults s req w) w.drawUUID := by
      simp [handleA2ARequest, hb, hid]
    have hreq : (applyDefaults s req w).ID = some (.str (s.uuid w.uuids)) :=
      applyDefaults_ID_none s req w hid
    rw [hrun, newEvents_same_trace w w.drawUUID _ rfl] at he
    rw [← hreq]
    exact dispatch_sender_id s _ _ e he x hx
  · cases hid : req.ID with
    | none => exact ⟨w.drawUUID, rfl, rfl, by simp [handleA2ARequest, hb, hid]⟩
    | some id => exact ⟨w, rfl, rfl, by simp [handleA2ARequest, hb, hid]⟩
  · intro hj
    cases hid : req.ID <;> simp [applyDefaults, hj, hid]
  · intro hj
    cases hid : req.ID <;> simp [applyDefaults, hj, hid]
  · by_cases hj : req.JSONRPC = "" <;> cases hid : req.ID <;> simp [applyDefaults, hj, hid]
  · by_cases hj : req.JSONRPC = "" <;> cases hid : req.ID <;> simp [applyDefaults, hj, hid]
  · cases hid : req.ID with
    | none =>
      have hrun : handleA2ARequest s body w =
          dispatch s (applyDefaults s req w) w.drawUUID := by
        simp [handleA2ARequest, hb, hid]
      rw [hrun, newEvents_same_trace w w.drawUUID _ rfl]
      exact dispatch_reply_or_panic s _ _
    | some id =>
      have hrun : handleA2ARequest s body w = dispatch s (applyDefaults s req w) w := by
        simp [handleA2ARequest, hb, hid]
      rw [hrun]
      exact dispatch_reply_or_panic s _ _
  · cases hid : req.ID with
    | none => rw [applyDefaults_ID_none s req w hid]; simp
    | some id => rw [applyDefaults_ID_some s req w id hid]; simp
  · intro text hid
    exact hsome _ hid
  · intro n hid
    exact hsome _ hid
  · intro n hid hn
    have := hsome _ hid
    rw [nearestFloat64_exact n hn] at this
    exact this

/-- C10, the claim as stated fails.  The body of `bigIdServer` carries the
id 9007199254740993; the decoder stores it as the float64 9007199254740992,
and that number, not the one sent, is passed to `SendSuccess`. -/
theorem handleA2ARequest_large_id_changes :
    nearestFloat64 9007199254740993 = 9007199254740992 ∧
    senderCalls (newEvents emptyWorld (handleA2ARequest bigIdServer "big id" emptyWorld)) =
      [.SendSuccess (some (.num 9007199254740992)) (.task helloTask)] ∧
    IDValue.num 9007199254740992 ≠ IDValue.num 9007199254740993 := by
  have hround : nearestFloat64 9007199254740993 = 9007199254740992 := by decide
  have hid : decodeID (.int 9007199254740993) = some (.num 9007199254740992) := by
    simp [decodeID, hround]
  have htrace : (handleA2ARequest bigIdServer "big id" emptyWorld).trace =
      emptyWorld.trace ++
        [.GetTask "task-456", .SendSuccess (some (.num 9007199254740992)) (.task helloTask)] := by
    simp [handleA2ARequest, applyDefaults, dispatch, handleTaskGet, bigIdServer,
      echoServer, bigIdRequest, emptyWorld, hid]
  refine ⟨hround, ?_, ?_⟩
  · rw [newEvents_of_trace _ _ _ htrace]
    simp [senderCalls]
  · intro h
    injection h with h
    norm_num at h

/-- C10 at a concrete input: `bareRequestServer` decodes a request without
`jsonrpc` and without `id`; the reply carries a synthesised id that is not
empty, and the request handed on has `JSONRPC` "2.0". -/
theorem handleA2ARequest_echoes_request_id_witness :
    (∃ fresh : String, fresh ≠ "" ∧
      ∀ e ∈ newEvents emptyWorld (handleA2ARequest bareRequestServer "no id" emptyWorld), ∀ x,
        e.senderID = some x → x = some (.str fresh)) ∧
    (applyDefaults bareRequestServer bareRequest emptyWorld).JSONRPC = "2.0" :=
  have h := handleA2ARequest_echoes_request_id bareRequestServer "no id" emptyWorld
    bareRequest rfl (by decide)
  ⟨h.2.1 rfl, h.2.2.2.1 rfl⟩

/-! ## Lemmas on the router -/

theorem handleA2ARequest_parse_error (s : A2AServerImpl) (body : String) (w : World)
    (err : GoError) (hb : (s.bindJSON body).2 = some err) :
    handleA2ARequest s body w =
      w.emit (.SendError (s.bindJSON body).1.ID ErrParseError "parse error") := by
  simp [handleA2ARequest, hb]

theorem handleA2ARequest_eq_dispatch (s : A2AServerImpl) (body : String) (w : World)
    (hb : (s.bindJSON body).2 = none) :
    ∃ w0 : World, w0.trace = w.trace ∧ w0.taskQueue = w.taskQueue ∧
      handleA2ARequest s body w = dispatch s (applyDefaults s (s.bindJSON body).1 w) w0 := by
  cases hid : (s.bindJSON body).1.ID with
  | none => exact ⟨w.drawUUID, rfl, rfl, by simp [handleA2ARequest, hb, hid]⟩
  | some id => exact ⟨w, rfl, rfl, by simp [handleA2ARequest, hb, hid]⟩

theorem applyDefaults_Method (s : A2AServerImpl) (req : JSONRPCRequest) (w : World) :
    (applyDefaults s req w).Method = req.Method := by
  by_cases hj : req.JSONRPC = "" <;> cases hid : req.ID <;> simp [applyDefaults, hj, hid]

theorem applyDefaults_Params (s : A2AServerImpl) (req : JSONRPCRequest) (w : World) :
    (applyDefaults s req w).Params = req.Params := by
  by_cases hj : req.JSONRPC = "" <;> cases hid : req.ID <;> simp [applyDefaults, hj, hid]

theorem OnlyErrorReply_of_same_start (code : Int) (w w0 w' : World)
    (ht : w0.trace = w.trace) (hq : w0.taskQueue = w.taskQueue)
    (h : OnlyErrorReply code w0 w') : OnlyErrorReply code w w' := by
  obtain ⟨h1, id, message, h2⟩ := h
  refine ⟨by rw [h1, hq], id, message, ?_⟩
  rw [newEvents_same_trace w w0 w' ht]
  exact h2

theorem dispatch_unknown_method (s : A2AServerImpl) (req : JSONRPCRequest) (w : World)
    (h1 : req.Method ≠ "message/send") (h2 : req.Method ≠ "message/stream")
    (h3 : req.Method ≠ "tasks/get") (h4 : req.Method ≠ "tasks/cancel") :
    dispatch s req w = w.emit (.SendError req.ID ErrMethodNotFound "method not found") := by
  simp [dispatch, h1, h2, h3, h4]

theorem handleMessageSend_params_error (s : A2AServerImpl) (req : JSONRPCRequest) (w : World)
    (hd : decodeParams s s.unmarshalMessageSendParams req.Params = none) :
    OnlyErrorReply ErrInvalidParams w (handleMessageSend s req w) := by
  unfold decodeParams at hd
  cases hm : s.marshal req.Params with
  | error e =>
    exact ⟨by simp [handleMessageSend, hm], req.ID, "invalid params",
      by simp [handleMessageSend, hm, newEvents]⟩
  | ok paramsBytes =>
    cases hu : s.unmarshalMessageSendParams paramsBytes with
    | error e =>
      exact ⟨by simp [handleMessageSend, hm, hu], req.ID, "invalid request",
        by simp [handleMessageSend, hm, hu, newEvents]⟩
    | ok params => simp [hm, hu] at hd

theorem handleMessageStream_params_error (s : A2AServerImpl) (req : JSONRPCRequest) (w : World)
    (hd : decodeParams s s.unmarshalMessageSendParams req.Params = none) :
    OnlyErrorReply ErrInvalidParams w (handleMessageStream s req w) := by
  unfold decodeParams at hd
  cases hm : s.marshal req.Params with
  | error e =>
    exact ⟨by simp [handleMessageStream, hm], req.ID, "invalid params",
      by simp [handleMessageStream, hm, newEvents]⟩
  | ok paramsBytes =>
    cases hu : s.unmarshalMessageSendParams paramsBytes with
    | error e =>
      exact ⟨by simp [handleMessageStream, hm, hu], req.ID, "invalid request",
        by simp [handleMessageStream, hm, hu, newEvents]⟩
    | ok params => simp [hm, hu] at hd

theorem handleTaskGet_params_error (s : A2AServerImpl) (req : JSONRPCRequest) (w : World)
    (hd : decodeParams s s.unmarshalTaskQueryParams req.Params = none) :
    OnlyErrorReply ErrInvalidParams w (handleTaskGet s req w) := by
  unfold decodeParams at hd
  cases hm : s.marshal req.Params with
  | error e =>
    exact ⟨by simp [handleTaskGet, hm], req.ID, "invalid params",
      by simp [handleTaskGet, hm, newEvents]⟩
  | ok paramsBytes =>
    cases hu : s.unmarshalTaskQueryParams paramsBytes with
    | error e =>
      exact ⟨by simp [handleTaskGet, hm, hu], req.ID, "invalid request",
        by simp [handleTaskGet, hm, hu, newEvents]⟩
    | ok params => simp [hm, hu] at hd

theorem handleTaskCancel_params_error (s : A2AServerImpl) (req : JSONRPCRequest) (w : World)
    (hd : decodeParams s s.unmarshalTaskIdParams req.Params = none) :
    OnlyErrorReply ErrInvalidParams w (handleTaskCancel s req w) := by
  unfold decodeParams at hd
  cases hm : s.marshal req.Params with
  | error e =>
    exact ⟨by simp [handleTaskCancel, hm], req.ID, "invalid params",
      by simp [handleTaskCancel, hm, newEvents]⟩
  | ok paramsBytes =>
    cases hu : s.unmarshalTaskIdParams paramsBytes with
    | error e =>
      exact ⟨by simp [handleTaskCancel, hm, hu], req.ID, "invalid request",
        by simp [handleTaskCancel, hm, hu, newEvents]⟩
    | ok params => simp [hm, hu] at hd

/-! ## Method dispatch and protocol errors -/

/-- C11.  For every envelope `req` decoded from a body, with `req1` the request
after the two defaults: the method "message/send" runs `handleMessageSend`,
"message/stream" runs `handleMessageStream`, "tasks/get" runs `handleTaskGet`
and "tasks/cancel" runs `handleTaskCancel`, each on `req1` and from a world
with the trace and queue as they were; for every other method string, the
empty one included, the only call is `SendError` with the request's id, code
-32601 and message "method not found", and the queue is unchanged. -/
theorem handleA2ARequest_dispatches_by_method (s : A2AServerImpl) (body : String) (w : World)
    (req : JSONRPCRequest) (hb : s.bindJSON body = (req, none)) :
    ∃ w0 : World, w0.trace = w.trace ∧ w0.taskQueue = w.taskQueue ∧
      (req.Method = "message/send" →
        handleA2ARequest s body w = handleMessageSend s (applyDefaults s req w) w0) ∧
      (req.Method = "message/stream" →
        handleA2ARequest s body w = handleMessageStream s (applyDefaults s req w) w0) ∧
      (req.Method = "tasks/get" →
        handleA2ARequest s body w = handleTaskGet s (applyDefaults s req w) w0) ∧
      (req.Method = "tasks/cancel" →
        handleA2ARequest s body w = handleTaskCancel s (applyDefaults s req w) w0) ∧
      (req.Method ≠ "message/send" → req.Method ≠ "message/stream" →
        req.Method ≠ "tasks/get" → req.Method ≠ "tasks/cancel" →
        (handleA2ARequest s body w).taskQueue = w.taskQueue ∧
        newEvents w (handleA2ARequest s body w) =
          [.SendError (applyDefaults s req w).ID (-32601) "method not found"]) := by
  have hb2 : (s.bindJSON body).2 = none := by rw [hb]
  have hb1 : (s.bindJSON body).1 = req := by rw [hb]
  obtain ⟨w0, ht, hq, hrun⟩ := handleA2ARequest_eq_dispatch s body w hb2
  rw [hb1] at hrun
  have hm := applyDefaults_Method s req w
  refine ⟨w0, ht, hq, ?_, ?_, ?_, ?_, ?_⟩
  · intro h
    rw [hrun]
    simp [dispatch, hm, h]
  · intro h
    rw [hrun]
    simp [dispatch, hm, h]
  · intro h
    rw [hrun]
    simp [dispatch, hm, h]
  · intro h
    rw [hrun]
    simp [dispatch, hm, h]
  · intro h1 h2 h3 h4
    rw [hrun, dispatch_unknown_method s _ w0 (by rwa [hm]) (by rwa [hm]) (by rwa [hm])
      (by rwa [hm])]
    refine ⟨by simp [hq], ?_⟩
    rw [newEvents_same_trace w w0 _ ht]
    simp [newEvents, ErrMethodNotFound]

/-- C11 at a concrete input: `noMethodServer` decodes a request whose method
is the empty string. -/
theorem handleA2ARequest_dispatches_by_method_witness :
    (handleA2ARequest noMethodServer "no method" emptyWorld).taskQueue = [] ∧
    newEvents emptyWorld (handleA2ARequest noMethodServer "no method" emptyWorld) =
      [.SendError (some (.str "x")) (-32601) "method not found"] := by
  obtain ⟨w0, _, _, _, _, _, _, h⟩ :=
    handleA2ARequest_dispatches_by_method noMethodServer "no method" emptyWorld
      noMethodRequest rfl
  exact h (by decide) (by decide) (by decide) (by decide)

/-- C12.  For every request body that fails to decode, `handleA2ARequest`
makes one call, `SendError` with code -32700 and message "parse error" (and
the id as far as it was decoded), and returns: no method handler runs, the
queue is unchanged and no UUID is drawn. -/
theorem handleA2ARequest_parse_error_reply (s : A2AServerImpl) (body : String) (w : World)
    (err : GoError) (hb : (s.bindJSON body).2 = some err) :
    newEvents w (handleA2ARequest s body w) =
      [.SendError (s.bindJSON body).1.ID (-32700) "parse error"] ∧
    (handleA2ARequest s body w).taskQueue = w.taskQueue ∧
    (handleA2ARequest s body w).uuids = w.uuids ∧
    OnlyErrorReply (-32700) w (handleA2ARequest s body w) := by
  rw [handleA2ARequest_parse_error s body w err hb]
  have hnew : newEvents w (w.emit (.SendError (s.bindJSON body).1.ID ErrParseError "parse error"))
      = [.SendError (s.bindJSON body).1.ID (-32700) "parse error"] := by
    simp [newEvents, ErrParseError]
  exact ⟨hnew, rfl, rfl, rfl, _, _, hnew⟩

/-- C12 at a concrete input: `malformedBodyServer` fails to decode the body. -/
theorem handleA2ARequest_parse_error_reply_witness :
    newEvents emptyWorld (handleA2ARequest malformedBodyServer "not json" emptyWorld) =
      [.SendError none (-32700) "parse error"] :=
  (handleA2ARequest_parse_error_reply malformedBodyServer "not json" emptyWorld
    (.other "unexpected end of JSON input") rfl).1

theorem errorCodes_emit_SendError (evs : List Event) (id : Option IDValue) (code : Int)
    (message : String) :
    errorCodes (evs ++ [.SendError id code message]) = errorCodes evs ++ [code] := by
  simp [errorCodes, List.filterMap_append]

theorem handleMessageSend_errorCodes (s : A2AServerImpl) (req : JSONRPCRequest) (w : World) :
    ∀ c ∈ errorCodes (newEvents w (handleMessageSend s req w)),
      c = ErrInvalidParams ∨ c = ErrInternalError := by
  cases hm : s.marshal req.Params with
  | error e => simp [handleMessageSend, hm, newEvents, errorCodes]
  | ok paramsBytes =>
    cases hu : s.unmarshalMessageSendParams paramsBytes with
    | error e => simp [handleMessageSend, hm, hu, newEvents, errorCodes]
    | ok params =>
      cases h2 : (s.HandleMessageSend w.trace params).2 with
      | some err => simp [handleMessageSend, hm, hu, h2, newEvents, errorCodes]
      | none =>
        cases h1 : (s.HandleMessageSend w.trace params).1 <;>
          by_cases hq : w.taskQueue.length < s.maxSize <;>
            by_cases hp : w.receiver = .parked <;>
              simp [handleMessageSend, hm, hu, h1, h2, hq, hp, newEvents, errorCodes]

theorem handleMessageStream_errorCodes (s : A2AServerImpl) (req : JSONRPCRequest) (w : World) :
    ∀ c ∈ errorCodes (newEvents w (handleMessageStream s req w)),
      c = ErrInvalidParams ∨ c = ErrInternalError := by
  cases hm : s.marshal req.Params with
  | error e => simp [handleMessageStream, hm, newEvents, errorCodes]
  | ok paramsBytes =>
    cases hu : s.unmarshalMessageSendParams paramsBytes with
    | error e => simp [handleMessageStream, hm, hu, newEvents, errorCodes]
    | ok params =>
      cases h : s.HandleMessageStream w.trace params <;>
        simp [handleMessageStream, hm, hu, h, newEvents, errorCodes]

theorem handleTaskGet_errorCodes (s : A2AServerImpl) (req : JSONRPCRequest) (w : World) :
    ∀ c ∈ errorCodes (newEvents w (handleTaskGet s req w)), c = ErrInvalidParams := by
  cases hm : s.marshal req.Params with
  | error e => simp [handleTaskGet, hm, newEvents, errorCodes]
  | ok paramsBytes =>
    cases hu : s.unmarshalTaskQueryParams paramsBytes with
    | error e => simp [handleTaskGet, hm, hu, newEvents, errorCodes]
    | ok params =>
      cases h2 : (s.GetTask w.trace params.ID).2 <;>
        cases h1 : (s.GetTask w.trace params.ID).1 <;>
          simp [handleTaskGet, hm, hu, h1, h2, newEvents, errorCodes]

theorem handleTaskCancel_errorCodes (s : A2AServerImpl) (req : JSONRPCRequest) (w : World) :
    ∀ c ∈ errorCodes (newEvents w (handleTaskCancel s req w)), c = ErrInvalidParams := by
  cases hm : s.marshal req.Params with
  | error e => simp [handleTaskCancel, hm, newEvents, errorCodes]
  | ok paramsBytes =>
    cases hu : s.unmarshalTaskIdParams paramsBytes with
    | error e => simp [handleTaskCancel, hm, hu, newEvents, errorCodes]
    | ok params =>
      cases hc : s.CancelTask w.trace params.ID with
      | some err => simp [handleTaskCancel, hm, hu, hc, newEvents, errorCodes]
      | none =>
        cases h1 : (s.GetTask (w.trace ++ [.CancelTask params.ID]) params.ID).1 <;>
          simp [handleTaskCancel, hm, hu, hc, h1, newEvents, errorCodes]

theorem dispatch_errorCodes (s : A2AServerImpl) (req : JSONRPCRequest) (w : World) :
    ∀ c ∈ errorCodes (newEvents w (dispatch s req w)),
      c = ErrInvalidParams ∨ c = ErrInternalError ∨ c = ErrMethodNotFound := by
  unfold dispatch
  split
  · intro c hc
    rcases handleMessageSend_errorCodes s req w c hc with h | h
    · exact Or.inl h
    · exact Or.inr (Or.inl h)
  split
  · intro c hc
    rcases handleMessageStream_errorCodes s req w c hc with h | h
    · exact Or.inl h
    · exact Or.inr (Or.inl h)
  split
  · intro c hc
    exact Or.inl (handleTaskGet_errorCodes s req w c hc)
  split
  · intro c hc
    exact Or.inl (handleTaskCancel_errorCodes s req w c hc)
  · simp [newEvents, errorCodes]

theorem dispatch_ignores_JSONRPC (s : A2AServerImpl) (req : JSONRPCRequest) (version : String)
    (w : World) : dispatch s { req with JSONRPC := version } w = dispatch s req w := rfl

/-- C13, as amended.  The router never replies with -32600: for every body,
decoded or not, every error code that `handleA2ARequest` sends is one of
-32700, -32601, -32602 and -32603.  The `jsonrpc` field is not checked: a
decoded request is handled exactly as if its `JSONRPC` were "2.0".  A decoded
request whose method is missing is answered with -32601, "method not
found". -/
theorem handleA2ARequest_never_invalid_request (s : A2AServerImpl) (body : String) (w : World) :
    (∀ c ∈ errorCodes (newEvents w (handleA2ARequest s body w)),
      c = -32700 ∨ c = -32601 ∨ c = -32602 ∨ c = -32603) ∧
    (-32600 : Int) ∉ errorCodes (newEvents w (handleA2ARequest s body w)) ∧
    ((s.bindJSON body).2 = none →
      ∃ w0 : World, w0.trace = w.trace ∧ w0.taskQueue = w.taskQueue ∧
        handleA2ARequest s body w =
          dispatch s { applyDefaults s (s.bindJSON body).1 w with JSONRPC := "2.0" } w0) ∧
    ((s.bindJSON body).2 = none → (s.bindJSON body).1.Method = "" →
      OnlyErrorReply (-32601) w (handleA2ARequest s body w)) := by
  have hcodes : ∀ c ∈ errorCodes (newEvents w (handleA2ARequest s body w)),
      c = -32700 ∨ c = -32601 ∨ c = -32602 ∨ c = -32603 := by
    cases hb : (s.bindJSON body).2 with
    | some err =>
      rw [handleA2ARequest_parse_error s body w err hb]
      simp [newEvents, errorCodes, ErrParseError]
    | none =>
      obtain ⟨w0, ht, _, hrun⟩ := handleA2ARequest_eq_dispatch s body w hb
      rw [hrun, newEvents_same_trace w w0 _ ht]
      intro c hc
      rcases dispatch_errorCodes s _ w0 c hc with h | h | h
      · exact Or.inr (Or.inr (Or.inl h))
      · exact Or.inr (Or.inr (Or.inr h))
      · exact Or.inr (Or.inl h)
  refine ⟨hcodes, ?_, ?_, ?_⟩
  · intro hmem
    rcases hcodes _ hmem with h | h | h | h <;> exact absurd h (by decide)
  · intro hb
    obtain ⟨w0, ht, hq, hrun⟩ := handleA2ARequest_eq_dispatch s body w hb
    exact ⟨w0, ht, hq, by rw [hrun]; exact (dispatch_ignores_JSONRPC s _ "2.0" w0).symm⟩
  · intro hb hmethod
    obtain ⟨w0, ht, hq, hrun⟩ := handleA2ARequest_eq_dispatch s body w hb
    have hm := applyDefaults_Method s (s.bindJSON body).1 w
    rw [hmethod] at hm
    rw [hrun, dispatch_unknown_method s _ w0 (by rw [hm]; decide) (by rw [hm]; decide)
      (by rw [hm]; decide) (by rw [hm]; decide)]
    apply OnlyErrorReply_of_same_start _ w w0 _ ht hq
    exact ⟨rfl, (applyDefaults s (s.bindJSON body).1 w).ID, "method not found",
      by simp [newEvents, ErrMethodNotFound]⟩

/-- C13, the claim as stated fails.  `oldVersionServer` decodes a `tasks/get`
request that says `"jsonrpc": "1.0"` and answers it with `SendSuccess`;
`noMethodServer` decodes a request without method and answers it with code
-32601.  Neither reply carries -32600. -/
theorem handleA2ARequest_accepts_other_jsonrpc :
    newEvents emptyWorld (handleA2ARequest oldVersionServer "jsonrpc 1.0" emptyWorld) =
      [.GetTask "task-456", .SendSuccess (some (.str "x")) (.task helloTask)] ∧
    newEvents emptyWorld (handleA2ARequest noMethodServer "no method" emptyWorld) =
      [.SendError (some (.str "x")) (-32601) "method not found"] := by
  constructor
  · have htrace : (handleA2ARequest oldVersionServer "jsonrpc 1.0" emptyWorld).trace =
        emptyWorld.trace ++
          [.GetTask "task-456", .SendSuccess (some (.str "x")) (.task helloTask)] := by
      simp [handleA2ARequest, applyDefaults, dispatch, handleTaskGet, oldVersionServer,
        echoServer, oldVersionRequest, emptyWorld]
    exact newEvents_of_trace _ _ _ htrace
  · have htrace : (handleA2ARequest noMethodServer "no method" emptyWorld).trace =
        emptyWorld.trace ++ [.SendError (some (.str "x")) (-32601) "method not found"] := by
      simp [handleA2ARequest, applyDefaults, dispatch, noMethodServer,
        echoServer, noMethodRequest, emptyWorld, ErrMethodNotFound]
    exact newEvents_of_trace _ _ _ htrace

theorem decodeParams_eq_some {α : Type} (s : A2AServerImpl)
    (unmarshal : String → Except GoError α) (params : RawParams) (decoded : α)
    (hd : decodeParams s unmarshal params = some decoded) :
    ∃ paramsBytes, s.marshal params = .ok paramsBytes ∧ unmarshal paramsBytes = .ok decoded := by
  unfold decodeParams at hd
  cases hm : s.marshal params with
  | error e => simp [hm] at hd
  | ok paramsBytes =>
    cases hu : unmarshal paramsBytes with
    | error e => simp [hm, hu] at hd
    | ok d =>
      simp [hm, hu] at hd
      exact ⟨paramsBytes, rfl, by rw [hu, hd]⟩

/-! ## tasks/get and tasks/cancel -/

/-- C14.  For every `tasks/get` request whose params decode to an id `i`: when
`GetTask(i)` reports that the task does not exist, the calls are `GetTask(i)`
and then `SendError` with code -32602 and message "task not found"; when it
returns a task, they are `GetTask(i)` and then `SendSuccess` with exactly that
task.  In every case the only registry call is `GetTask(i)` and the queue is
unchanged. -/
theorem handleTaskGet_reads_registry_once (s : A2AServerImpl) (req : JSONRPCRequest) (w : World)
    (params : TaskQueryParams)
    (hd : decodeParams s s.unmarshalTaskQueryParams req.Params = some params) :
    ((s.GetTask w.trace params.ID).2 = false →
      newEvents w (handleTaskGet s req w) =
        [.GetTask params.ID, .SendError req.ID (-32602) "task not found"]) ∧
    (∀ task, s.GetTask w.trace params.ID = (some task, true) →
      newEvents w (handleTaskGet s req w) =
        [.GetTask params.ID, .SendSuccess req.ID (.task task)]) ∧
    registryCalls (newEvents w (handleTaskGet s req w)) = [.GetTask params.ID] ∧
    (handleTaskGet s req w).taskQueue = w.taskQueue := by
  obtain ⟨paramsBytes, hm, hu⟩ := decodeParams_eq_some s _ _ _ hd
  refine ⟨?_, ?_, ?_, ?_⟩
  · intro h2
    simp [handleTaskGet, hm, hu, h2, newEvents, ErrInvalidParams]
  · intro task ht
    simp [handleTaskGet, hm, hu, ht, newEvents]
  · cases h2 : (s.GetTask w.trace params.ID).2 <;>
      cases h1 : (s.GetTask w.trace params.ID).1 <;>
        simp [handleTaskGet, hm, hu, h1, h2, newEvents, registryCalls]
  · cases h2 : (s.GetTask w.trace params.ID).2 <;>
      cases h1 : (s.GetTask w.trace params.ID).1 <;>
        simp [handleTaskGet, hm, hu, h1, h2]

/-- C14 at a concrete input: `echoServer` is asked for "task-456", which its
registry holds. -/
theorem handleTaskGet_reads_registry_once_witness :
    newEvents emptyWorld (handleTaskGet echoServer oldVersionRequest emptyWorld) =
      [.GetTask "task-456", .SendSuccess (some (.str "x")) (.task helloTask)] ∧
    registryCalls (newEvents emptyWorld (handleTaskGet echoServer oldVersionRequest emptyWorld)) =
      [.GetTask "task-456"] :=
  have h := handleTaskGet_reads_registry_once echoServer oldVersionRequest emptyWorld
    { ID := "task-456" } rfl
  ⟨h.2.1 helloTask rfl, h.2.2.1⟩

/-- C15.  For every request body: when the body fails to decode, the only
effect of `handleA2ARequest` is one `SendError` with code -32700; when it
decodes and the method is one of "message/send", "message/stream",
"tasks/get" and "tasks/cancel" but the params fail to decode into that
method's parameter type, the only effect is one `SendError` with code -32602;
when it decodes and the method is none of the four, the only effect is one
`SendError` with code -32601.  In each case the queue is unchanged and neither
the message handler nor the task registry is called. -/
theorem protocol_errors_leave_state (s : A2AServerImpl) (body : String) (w : World) :
    (∀ err, (s.bindJSON body).2 = some err →
      OnlyErrorReply (-32700) w (handleA2ARequest s body w)) ∧
    ((s.bindJSON body).2 = none → (s.bindJSON body).1.Method = "message/send" →
      decodeParams s s.unmarshalMessageSendParams (s.bindJSON body).1.Params = none →
      OnlyErrorReply (-32602) w (handleA2ARequest s body w)) ∧
    ((s.bindJSON body).2 = none → (s.bindJSON body).1.Method = "message/stream" →
      decodeParams s s.unmarshalMessageSendParams (s.bindJSON body).1.Params = none →
      OnlyErrorReply (-32602) w (handleA2ARequest s body w)) ∧
    ((s.bindJSON body).2 = none → (s.bindJSON body).1.Method = "tasks/get" →
      decodeParams s s.unmarshalTaskQueryParams (s.bindJSON body).1.Params = none →
      OnlyErrorReply (-32602) w (handleA2ARequest s body w)) ∧
    ((s.bindJSON body).2 = none → (s.bindJSON body).1.Method = "tasks/cancel" →
      decodeParams s s.unmarshalTaskIdParams (s.bindJSON body).1.Params = none →
      OnlyErrorReply (-32602) w (handleA2ARequest s body w)) ∧
    ((s.bindJSON body).2 = none → (s.bindJSON body).1.Method ≠ "message/send" →
      (s.bindJSON body).1.Method ≠ "message/stream" →
      (s.bindJSON body).1.Method ≠ "tasks/get" →
      (s.bindJSON body).1.Method ≠ "tasks/cancel" →
      OnlyErrorReply (-32601) w (handleA2ARequest s body w)) ∧
    (∀ code, OnlyErrorReply code w (handleA2ARequest s body w) →
      registryCalls (newEvents w (handleA2ARequest s body w)) = [] ∧
      (∀ p, Event.HandleMessageSend p ∉ newEvents w (handleA2ARequest s body w)) ∧
      (∀ p, Event.HandleMessageStream p ∉ newEvents w (handleA2ARequest s body w)) ∧
      (handleA2ARequest s body w).taskQueue = w.taskQueue) := by
  have hm := applyDefaults_Method s (s.bindJSON body).1 w
  have hp := applyDefaults_Params s (s.bindJSON body).1 w
  refine ⟨?_, ?_, ?_, ?_, ?_, ?_, ?_⟩
  · intro err hb
    rw [handleA2ARequest_parse_error s body w err hb]
    exact ⟨rfl, (s.bindJSON body).1.ID, "parse error", by simp [newEvents, ErrParseError]⟩
  · intro hb hmethod hd
    obtain ⟨w0, ht, hq, hrun⟩ := handleA2ARequest_eq_dispatch s body w hb
    rw [hrun]
    apply OnlyErrorReply_of_same_start _ w w0 _ ht hq
    have : dispatch s (applyDefaults s (s.bindJSON body).1 w) w0 =
        handleMessageSend s (applyDefaults s (s.bindJSON body).1 w) w0 := by
      simp [dispatch, hm, hmethod]
    rw [this]
    exact handleMessageSend_params_error s _ w0 (by rw [hp]; exact hd)
  · intro hb hmethod hd
    obtain ⟨w0, ht, hq, hrun⟩ := handleA2ARequest_eq_dispatch s body w hb
    rw [hrun]
    apply OnlyErrorReply_of_same_start _ w w0 _ ht hq
    have : dispatch s (applyDefaults s (s.bindJSON body).1 w) w0 =
        handleMessageStream s (applyDefaults s (s.bindJSON body).1 w) w0 := by
      simp [dispatch, hm, hmethod]
    rw [this]
    exact handleMessageStream_params_error s _ w0 (by rw [hp]; exact hd)
  · intro hb hmethod hd
    obtain ⟨w0, ht, hq, hrun⟩ := handleA2ARequest_eq_dispatch s body w hb
    rw [hrun]
    apply OnlyErrorReply_of_same_start _ w w0 _ ht hq
    have : dispatch s (applyDefaults s (s.bindJSON body).1 w) w0 =
        handleTaskGet s (applyDefaults s (s.bindJSON body).1 w) w0 := by
      simp [dispatch, hm, hmethod]
    rw [this]
    exact handleTaskGet_params_error s _ w0 (by rw [hp]; exact hd)
  · intro hb hmethod hd
    obtain ⟨w0, ht, hq, hrun⟩ := handleA2ARequest_eq_dispatch s body w hb
    rw [hrun]
    apply OnlyErrorReply_of_same_start _ w w0 _ ht hq
    have : dispatch s (applyDefaults s (s.bindJSON body).1 w) w0 =
        handleTaskCancel s (applyDefaults s (s.bindJSON body).1 w) w0 := by
      simp [dispatch, hm, hmethod]
    rw [this]
    exact handleTaskCancel_params_error s _ w0 (by rw [hp]; exact hd)
  · intro hb h1 h2 h3 h4
    obtain ⟨w0, ht, hq, hrun⟩ := handleA2ARequest_eq_dispatch s body w hb
    rw [hrun, dispatch_unknown_method s _ w0 (by rwa [hm]) (by rwa [hm]) (by rwa [hm])
      (by rwa [hm])]
    apply OnlyErrorReply_of_same_start _ w w0 _ ht hq
    exact ⟨rfl, (applyDefaults s (s.bindJSON body).1 w).ID, "method not found",
      by simp [newEvents, ErrMethodNotFound]⟩
  · intro code h
    obtain ⟨hq, id, message, hnew⟩ := h
    rw [hnew]
    exact ⟨by simp [registryCalls], by simp, by simp, hq⟩

/-- C15 at a concrete input: `badParamsServer` decodes a `tasks/get` request
whose params do not decode. -/
theorem protocol_errors_leave_state_witness :
    OnlyErrorReply (-32602) emptyWorld (handleA2ARequest badParamsServer "bad params" emptyWorld) :=
  (protocol_errors_leave_state badParamsServer "bad params" emptyWorld).2.2.2.1 rfl rfl rfl

/-- C16, as amended.  For every `tasks/cancel` request whose params decode to
an id `i`: when `CancelTask(i)` returns an error, whatever its cause, the
calls are `CancelTask(i)` and then `SendError` with code -32602 and the text
of the error as message; the queue is unchanged.  No reply of
`handleTaskCancel` ever carries -32603. -/
theorem handleTaskCancel_failure_is_invalid_params (s : A2AServerImpl) (req : JSONRPCRequest)
    (w : World) (params : TaskIdParams) (err : GoError)
    (hd : decodeParams s s.unmarshalTaskIdParams req.Params = some params)
    (hc : s.CancelTask w.trace params.ID = some err) :
    newEvents w (handleTaskCancel s req w) =
      [.CancelTask params.ID, .SendError req.ID (-32602) err.Error] ∧
    (handleTaskCancel s req w).taskQueue = w.taskQueue ∧
    (-32603 : Int) ∉ errorCodes (newEvents w (handleTaskCancel s req w)) := by
  obtain ⟨paramsBytes, hm, hu⟩ := decodeParams_eq_some s _ _ _ hd
  refine ⟨?_, ?_, ?_⟩
  · simp [handleTaskCancel, hm, hu, hc, newEvents, ErrInvalidParams]
  · simp [handleTaskCancel, hm, hu, hc]
  · intro hmem
    have := handleTaskCancel_errorCodes s req w _ hmem
    exact absurd this (by decide)

/-- C16 at a concrete input: `terminalTaskServer` rejects the cancellation. -/
theorem handleTaskCancel_failure_is_invalid_params_witness :
    newEvents emptyWorld (handleTaskCancel terminalTaskServer cancelRequest emptyWorld) =
      [.CancelTask "task-456",
       .SendError (some (.num 2)) (-32602) "task is already in a terminal state"] :=
  (handleTaskCancel_failure_is_invalid_params terminalTaskServer cancelRequest emptyWorld
    { ID := "task-456" } (.other "task is already in a terminal state") rfl rfl).1

/-- C16, the claim as stated fails.  The registry of `terminalTaskServer`
rejects the cancellation of a task that is already terminal; the router
replies with code -32602, and no `SendError` with code -32603 is made. -/
theorem handleTaskCancel_rejected_transition_code :
    errorCodes (newEvents emptyWorld
      (handleTaskCancel terminalTaskServer cancelRequest emptyWorld)) = [-32602] ∧
    (-32603 : Int) ∉ errorCodes (newEvents emptyWorld
      (handleTaskCancel terminalTaskServer cancelRequest emptyWorld)) := by
  have htrace : (handleTaskCancel terminalTaskServer cancelRequest emptyWorld).trace =
      emptyWorld.trace ++
        [.CancelTask "task-456",
         .SendError (some (.num 2)) (-32602) "task is already in a terminal state"] := by
    simp [handleTaskCancel, terminalTaskServer, echoServer, cancelRequest, emptyWorld,
      ErrInvalidParams, GoError.Error]
  rw [newEvents_of_trace _ _ _ htrace]
  simp [errorCodes]

/-! ## The message of a task failed on a full queue -/

theorem handleMessageSend_UpdateTask_message (s : A2AServerImpl) (req : JSONRPCRequest)
    (w : World) :
    ∀ id st m, Event.UpdateTask id st m ∈ newEvents w (handleMessageSend s req w) →
      st = TaskStateFailed ∧
      ∃ messageID, m = some (assistantTextMessage messageID
        "Task queue is full. Please try again later.") := by
  cases hm : s.marshal req.Params with
  | error e => simp [handleMessageSend, hm, newEvents]
  | ok paramsBytes =>
    cases hu : s.unmarshalMessageSendParams paramsBytes with
    | error e => simp [handleMessageSend, hm, hu, newEvents]
    | ok params =>
      cases h2 : (s.HandleMessageSend w.trace params).2 with
      | some err => simp [handleMessageSend, hm, hu, h2, newEvents]
      | none =>
        cases h1 : (s.HandleMessageSend w.trace params).1 <;>
          by_cases hq : w.taskQueue.length < s.maxSize <;>
            by_cases hp : w.receiver = .parked <;>
              simp [handleMessageSend, hm, hu, h1, h2, hq, hp, newEvents]
        intro id st m hid hst hmsg
        exact ⟨hst, _, hmsg⟩

/-- C17, as amended.  For every `message/send` request whose params decode and
for which `HandleMessageSend` returns a task, on a full queue with the
processor not blocked in its receive (always so when `maxSize` is positive):
the only `UpdateTask` call carries an assistant message with exactly one part,
the text part whose text is "Task queue is full. Please try again later.".
In every run of `handleMessageSend`, whatever the queue, an `UpdateTask` call
it makes is to failed with such a message.  That text starts with
"Task queue is full", with a capital T; it is not entirely lower-case, and
lower-casing each of its characters gives
"task queue is full. please try again later.". -/
theorem queue_full_message_text (s : A2AServerImpl) (req : JSONRPCRequest) (w : World)
    (params : MessageSendParams) (task : Task)
    (hd : decodeParams s s.unmarshalMessageSendParams req.Params = some params)
    (hh : s.HandleMessageSend w.trace params = (some task, none))
    (hfull : s.maxSize ≤ w.taskQueue.length)
    (hidle : (0 < s.maxSize ∧ ChannelOK w) ∨ w.receiver ≠ .parked) :
    (∃ m : Message,
      registryCalls (newEvents w (handleMessageSend s req w)) =
        [.UpdateTask task.ID TaskStateFailed (some m)] ∧
      m.Role = "assistant" ∧
      m.Parts = [textPart "Task queue is full. Please try again later."] ∧
      "Task queue is full. Please try again later." =
        "Task queue is full" ++ ". Please try again later." ∧
      "Task queue is full. Please try again later." ≠
        "task queue is full. please try again later." ∧
      ("Task queue is full. Please try again later.".data.all fun c => !c.isUpper) = false ∧
      "Task queue is full. Please try again later.".data.map Char.toLower =
        "task queue is full. please try again later.".data) ∧
    (∀ (req0 : JSONRPCRequest) (w0 : World) id st m,
      Event.UpdateTask id st m ∈ newEvents w0 (handleMessageSend s req0 w0) →
      st = TaskStateFailed ∧
      ∃ messageID, m = some (assistantTextMessage messageID
        "Task queue is full. Please try again later.")) := by
  obtain ⟨paramsBytes, hm, hu⟩ := decodeParams_eq_some s _ _ _ hd
  have hlt : ¬ w.taskQueue.length < s.maxSize := Nat.not_lt.2 hfull
  have hnp : ¬ w.receiver = .parked := not_parked_of_full s w hfull hidle
  refine ⟨⟨assistantTextMessage (s.uuid w.uuids) "Task queue is full. Please try again later.",
    ?_, rfl, rfl, by decide, by decide, by decide, by decide⟩,
    fun req0 w0 => handleMessageSend_UpdateTask_message s req0 w0⟩
  simp [handleMessageSend, hm, hu, hh, hlt, hnp, newEvents, registryCalls]

/-- C17 at a concrete input: `echoServer` with its queue full. -/
theorem queue_full_message_text_witness :
    ∃ m : Message,
      registryCalls (newEvents busyWorld (handleMessageSend echoServer sendRequest busyWorld)) =
        [.UpdateTask "task-456" TaskStateFailed (some m)] ∧
      m.Parts = [textPart "Task queue is full. Please try again later."] := by
  obtain ⟨⟨m, h1, _, h2, _⟩, _⟩ := queue_full_message_text echoServer sendRequest busyWorld
    { Message := helloMessage } helloTask rfl rfl (by decide) (Or.inr (by decide))
  exact ⟨m, h1, h2⟩

/-- C17, the claim as stated fails.  On `echoServer` with its queue full, the
message attached to the failed task has the single text part
"Task queue is full. Please try again later.", which is not the all lower-case
text "task queue is full. please try again later.". -/
theorem queue_full_message_is_capitalised :
    registryCalls (newEvents busyWorld (handleMessageSend echoServer sendRequest busyWorld)) =
      [.UpdateTask "task-456" TaskStateFailed
        (some (assistantTextMessage "u" "Task queue is full. Please try again later."))] ∧
    assistantTextMessage "u" "Task queue is full. Please try again later." ≠
      assistantTextMessage "u" "task queue is full. please try again later." := by
  constructor
  · have htrace : (handleMessageSend echoServer sendRequest busyWorld).trace =
        busyWorld.trace ++
          [.HandleMessageSend { Message := helloMessage },
           .UpdateTask "task-456" TaskStateFailed
            (some (assistantTextMessage "u" "Task queue is full. Please try again later.")),
           .SendSuccess (some (.num 1)) (.task helloTask)] := by
      simp [handleMessageSend, echoServer, sendRequest, busyWorld, helloTask]
    rw [newEvents_of_trace _ _ _ htrace]
    simp [registryCalls]
  · decide

/-! ## The bounded queue -/

theorem processQueuedTask_taskQueue (s : A2AServerImpl) (queuedTask : QueuedTask) (w : World) :
    (processQueuedTask s queuedTask w).taskQueue = w.taskQueue := by
  unfold processQueuedTask
  cases hq : queuedTask.Task with
  | none => simp
  | some task =>
    cases hmsg : task.Status.Message <;>
      cases hw : s.UpdateTask w.trace task.ID TaskStateWorking none <;>
        simp only [hw, World.drawUUID_trace] <;>
          repeat' split
    all_goals simp [World.emit, World.drawUUID]

theorem processQueuedTask_receiver (s : A2AServerImpl) (queuedTask : QueuedTask) (w : World) :
    (processQueuedTask s queuedTask w).receiver = w.receiver := by
  unfold processQueuedTask
  cases hq : queuedTask.Task with
  | none => simp
  | some task =>
    cases hmsg : task.Status.Message <;>
      cases hw : s.UpdateTask w.trace task.ID TaskStateWorking none <;>
        simp only [hw, World.drawUUID_trace] <;>
          repeat' split
    all_goals simp [World.emit, World.drawUUID]

/-- What `handleMessageSend` does to the channel.  When the params decode and
the message handler returns no error, the entry made of the created task and
the request id is handed to a processor blocked in its receive, or else
appended to the buffer when it is below capacity; in both cases no
`UpdateTask` is made.  In every other case the channel is left as it is. -/
theorem handleMessageSend_channel (s : A2AServerImpl) (req : JSONRPCRequest) (w : World) :
    (∀ params, decodeParams s s.unmarshalMessageSendParams req.Params = some params →
      (s.HandleMessageSend w.trace params).2 = none → w.receiver = .parked →
      (handleMessageSend s req w).receiver =
        .handed { Task := (s.HandleMessageSend w.trace params).1, RequestID := req.ID } ∧
      (handleMessageSend s req w).taskQueue = w.taskQueue ∧
      ∀ id st m, Event.UpdateTask id st m ∉ newEvents w (handleMessageSend s req w)) ∧
    (∀ params, decodeParams s s.unmarshalMessageSendParams req.Params = some params →
      (s.HandleMessageSend w.trace params).2 = none → w.receiver ≠ .parked →
      w.taskQueue.length < s.maxSize →
      (handleMessageSend s req w).taskQueue =
        w.taskQueue ++ [{ Task := (s.HandleMessageSend w.trace params).1, RequestID := req.ID }] ∧
      (handleMessageSend s req w).receiver = w.receiver ∧
      ∀ id st m, Event.UpdateTask id st m ∉ newEvents w (handleMessageSend s req w)) ∧
    (decodeParams s s.unmarshalMessageSendParams req.Params = none →
      (handleMessageSend s req w).taskQueue = w.taskQueue ∧
      (handleMessageSend s req w).receiver = w.receiver) ∧
    (∀ params, decodeParams s s.unmarshalMessageSendParams req.Params = some params →
      (s.HandleMessageSend w.trace params).2 ≠ none →
      (handleMessageSend s req w).taskQueue = w.taskQueue ∧
      (handleMessageSend s req w).receiver = w.receiver) ∧
    (w.receiver ≠ .parked → s.maxSize ≤ w.taskQueue.length →
      (handleMessageSend s req w).taskQueue = w.taskQueue ∧
      (handleMessageSend s req w).receiver = w.receiver) := by
  refine ⟨?_, ?_, ?_, ?_, ?_⟩
  · intro params hd h2 hp
    obtain ⟨paramsBytes, hm, hu⟩ := decodeParams_eq_some s _ _ _ hd
    cases h1 : (s.HandleMessageSend w.trace params).1 <;>
      simp [handleMessageSend, hm, hu, h1, h2, hp, newEvents]
  · intro params hd h2 hnp hlt
    obtain ⟨paramsBytes, hm, hu⟩ := decodeParams_eq_some s _ _ _ hd
    cases h1 : (s.HandleMessageSend w.trace params).1 <;>
      simp [handleMessageSend, hm, hu, h1, h2, hnp, hlt, newEvents]
  · intro hd
    unfold decodeParams at hd
    cases hm : s.marshal req.Params with
    | error e => simp [handleMessageSend, hm]
    | ok paramsBytes =>
      cases hu : s.unmarshalMessageSendParams paramsBytes with
      | error e => simp [handleMessageSend, hm, hu]
      | ok params => simp [hm, hu] at hd
  · intro params hd h2
    obtain ⟨paramsBytes, hm, hu⟩ := decodeParams_eq_some s _ _ _ hd
    cases h2' : (s.HandleMessageSend w.trace params).2 with
    | none => exact absurd h2' h2
    | some err => simp [handleMessageSend, hm, hu, h2']
  · intro hnp hfull
    have hlt : ¬ w.taskQueue.length < s.maxSize := Nat.not_lt.2 hfull
    cases hm : s.marshal req.Params with
    | error e => simp [handleMessageSend, hm]
    | ok paramsBytes =>
      cases hu : s.unmarshalMessageSendParams paramsBytes with
      | error e => simp [handleMessageSend, hm, hu]
      | ok params =>
        cases h2 : (s.HandleMessageSend w.trace params).2 <;>
          cases h1 : (s.HandleMessageSend w.trace params).1 <;>
            simp [handleMessageSend, hm, hu, h1, h2, hlt, hnp]

theorem pending_of_not_handed (w : World) (h : ∀ q, w.receiver ≠ .handed q) :
    w.pending = w.taskQueue := by
  unfold World.pending
  cases hr : w.receiver with
  | running => rfl
  | parked => rfl
  | handed q => exact absurd hr (h q)

theorem pending_congr (w w1 : World) (hq : w1.taskQueue = w.taskQueue)
    (hr : w1.receiver = w.receiver) : w1.pending = w.pending := by
  unfold World.pending
  rw [hq, hr]

theorem pending_append (w w1 : World) (q : QueuedTask) (hq : w1.taskQueue = w.taskQueue ++ [q])
    (hr : w1.receiver = w.receiver) : w1.pending = w.pending ++ [q] := by
  unfold World.pending
  rw [hq, hr]
  cases w.receiver <;> simp

/-- The three ways a `message/send` can leave the channel, in terms of the
entries pending: one entry more at the end, sent on the channel, or nothing
changed. -/
theorem handleMessageSend_pending (s : A2AServerImpl) (req : JSONRPCRequest) (w : World)
    (hok : ChannelOK w) :
    ((∃ params, decodeParams s s.unmarshalMessageSendParams req.Params = some params ∧
        (s.HandleMessageSend w.trace params).2 = none ∧
        (w.taskQueue.length < s.maxSize ∨ w.receiver = .parked) ∧
        (handleMessageSend s req w).pending = w.pending ++
          [{ Task := (s.HandleMessageSend w.trace params).1, RequestID := req.ID }] ∧
        sentEntries w (handleMessageSend s req w) =
          [{ Task := (s.HandleMessageSend w.trace params).1, RequestID := req.ID }] ∧
        (handleMessageSend s req w).taskQueue.length ≤ max s.maxSize w.taskQueue.length) ∨
      ((¬ ∃ params, decodeParams s s.unmarshalMessageSendParams req.Params = some params ∧
          (s.HandleMessageSend w.trace params).2 = none ∧
          (w.taskQueue.length < s.maxSize ∨ w.receiver = .parked)) ∧
        (handleMessageSend s req w).taskQueue = w.taskQueue ∧
        (handleMessageSend s req w).receiver = w.receiver ∧
        (handleMessageSend s req w).pending = w.pending ∧
        sentEntries w (handleMessageSend s req w) = [])) ∧
    ChannelOK (handleMessageSend s req w) := by
  obtain ⟨hhand, hadd, hnone, herr, hfull⟩ := handleMessageSend_channel s req w
  have hsame : (handleMessageSend s req w).taskQueue = w.taskQueue →
      (handleMessageSend s req w).receiver = w.receiver →
      (handleMessageSend s req w).pending = w.pending ∧
      sentEntries w (handleMessageSend s req w) = [] ∧
      ChannelOK (handleMessageSend s req w) := by
    intro hq hr
    refine ⟨pending_congr _ _ hq hr, ?_, ?_⟩
    · unfold sentEntries
      by_cases hp : w.receiver = .parked
      · simp [hp, hr]
      · simp [hp, hq]
    · intro hp
      rw [hq]
      exact hok (by rw [← hr]; exact hp)
  cases hd : decodeParams s s.unmarshalMessageSendParams req.Params with
  | none =>
    obtain ⟨hq, hr⟩ := hnone hd
    obtain ⟨h1, h2, h3⟩ := hsame hq hr
    exact ⟨Or.inr ⟨by simp, hq, hr, h1, h2⟩, h3⟩
  | some params =>
    by_cases h2 : (s.HandleMessageSend w.trace params).2 = none
    · by_cases hp : w.receiver = .parked
      · obtain ⟨hr, hq, _⟩ := hhand params hd h2 hp
        have hempty : w.taskQueue = [] := hok hp
        refine ⟨Or.inl ⟨params, rfl, h2, Or.inr hp, ?_, ?_, ?_⟩, ?_⟩
        · unfold World.pending
          rw [hr, hq, hp, hempty]
          rfl
        · unfold sentEntries
          simp [hp, hr]
        · rw [hq]
          exact Nat.le_max_right _ _
        · intro hp'
          rw [hr] at hp'
          cases hp'
      · by_cases hlt : w.taskQueue.length < s.maxSize
        · obtain ⟨hq, hr, _⟩ := hadd params hd h2 hp hlt
          refine ⟨Or.inl ⟨params, rfl, h2, Or.inl hlt, pending_append _ _ _ hq hr, ?_, ?_⟩, ?_⟩
          · unfold sentEntries
            simp [hp, hq]
          · rw [hq]
            simp
            omega
          · intro hp'
            rw [hr] at hp'
            exact absurd hp' hp
        · obtain ⟨hq, hr⟩ := hfull hp (Nat.le_of_not_lt hlt)
          obtain ⟨h1, h3, h4⟩ := hsame hq hr
          refine ⟨Or.inr ⟨?_, hq, hr, h1, h3⟩, h4⟩
          rintro ⟨params', hd', _, hcase⟩
          rcases hcase with h | h
          · exact hlt h
          · exact hp h
    · obtain ⟨hq, hr⟩ := herr params hd h2
      obtain ⟨h1, h3, h4⟩ := hsame hq hr
      refine ⟨Or.inr ⟨?_, hq, hr, h1, h3⟩, h4⟩
      rintro ⟨params', hd', h2', _⟩
      have : params' = params := (Option.some.inj hd').symm
      rw [this] at h2'
      exact h2 h2'

/-- A turn of the processor takes up the first pending entry, never lengthens
the buffer, and blocks only on an empty buffer. -/
theorem processorStep_channel (s : A2AServerImpl) (w : World) :
    (processorStep s w).pending = w.pending.drop 1 ∧
    (processorStep s w).taskQueue.length ≤ w.taskQueue.length ∧
    ChannelOK (processorStep s w) := by
  unfold processorStep
  cases hr : w.receiver with
  | handed q =>
    refine ⟨?_, ?_, ?_⟩
    · simp [World.pending, hr, processQueuedTask_taskQueue, processQueuedTask_receiver]
    · simp [processQueuedTask_taskQueue]
    · intro hp
      simp [processQueuedTask_receiver] at hp
  | running =>
    cases hq : w.taskQueue with
    | nil => simp [World.pending, hr, hq, ChannelOK]
    | cons q rest =>
      refine ⟨?_, ?_, ?_⟩
      · simp [World.pending, hr, hq, processQueuedTask_taskQueue, processQueuedTask_receiver]
      · simp [processQueuedTask_taskQueue]
      · intro hp
        simp [processQueuedTask_receiver] at hp
  | parked =>
    cases hq : w.taskQueue with
    | nil => simp [World.pending, hr, hq, ChannelOK]
    | cons q rest =>
      refine ⟨?_, ?_, ?_⟩
      · simp [World.pending, hr, hq, processQueuedTask_taskQueue, processQueuedTask_receiver]
      · simp [processQueuedTask_taskQueue]
      · intro hp
        simp [processQueuedTask_receiver] at hp

theorem runQueue_invariant (s : A2AServerImpl) (steps : List QueueStep) :
    ∀ w : World, ChannelOK w →
      ChannelOK (runQueue s w steps) ∧
      (w.taskQueue.length ≤ s.maxSize → (runQueue s w steps).taskQueue.length ≤ s.maxSize) ∧
      w.pending ++ admitted s w steps = received s w steps ++ (runQueue s w steps).pending := by
  induction steps with
  | nil =>
    intro w hok
    exact ⟨hok, fun h => h, by simp [admitted, received, runQueue]⟩
  | cons step rest ih =>
    intro w hok
    cases step with
    | send req =>
      obtain ⟨hcases, hok1⟩ := handleMessageSend_pending s req w hok
      obtain ⟨ih1, ih2, ih3⟩ := ih (handleMessageSend s req w) hok1
      have hpend : (handleMessageSend s req w).pending =
          w.pending ++ sentEntries w (handleMessageSend s req w) := by
        rcases hcases with ⟨params, _, _, _, hp, hs, _⟩ | ⟨_, _, _, hp, hs⟩
        · rw [hp, hs]
        · rw [hp, hs]; simp
      have hlen : w.taskQueue.length ≤ s.maxSize →
          (handleMessageSend s req w).taskQueue.length ≤ s.maxSize := by
        intro h
        rcases hcases with ⟨params, _, _, _, _, _, hl⟩ | ⟨_, hq, _, _, _⟩
        · exact le_trans hl (max_le (le_refl _) h)
        · rw [hq]; exact h
      refine ⟨ih1, fun h => ih2 (hlen h), ?_⟩
      simp only [admitted, received, runQueue, List.foldl_cons, queueStep] at ih3 ⊢
      rw [← List.append_assoc, ← hpend]
      exact ih3
    | receive =>
      obtain ⟨hpend, hlen, hok1⟩ := processorStep_channel s w
      obtain ⟨ih1, ih2, ih3⟩ := ih (processorStep s w) hok1
      refine ⟨ih1, fun h => ih2 (le_trans hlen h), ?_⟩
      simp only [admitted, received, runQueue, List.foldl_cons, queueStep] at ih3 ⊢
      rw [List.append_assoc, ← ih3, hpend, ← List.append_assoc, List.take_append_drop]

/-- C18, as amended.  With the queue a list bounded by `maxSize` and a
processor that blocks on the empty queue.  For every sequence of
`message/send` admissions and processor turns from a queue within the bound,
the queue stays within the bound.  A `message/send` sends exactly one entry,
made of the created task and the request id, behind the entries pending, if
and only if its params decode, `HandleMessageSend` returns no error and
either the queue holds fewer than `maxSize` entries or the processor is
blocked in its receive, and then it issues no `UpdateTask`; otherwise the
channel is unchanged.  When `maxSize` is positive the last condition is just
that the queue holds fewer than `maxSize` entries.  The processor takes up the
first pending entry.  The entries admitted are, in order, the entries taken up
so far followed by the entries still pending: entries are dequeued in the
order of their admission. -/
theorem queue_bounded_fifo (s : A2AServerImpl) (w : World) (steps : List QueueStep)
    (req : JSONRPCRequest) (hok : ChannelOK w) :
    (w.taskQueue.length ≤ s.maxSize → (runQueue s w steps).taskQueue.length ≤ s.maxSize) ∧
    ((∃ q, (handleMessageSend s req w).pending = w.pending ++ [q]) ↔
      ∃ params, decodeParams s s.unmarshalMessageSendParams req.Params = some params ∧
        (s.HandleMessageSend w.trace params).2 = none ∧
        (w.taskQueue.length < s.maxSize ∨ w.receiver = .parked)) ∧
    (0 < s.maxSize →
      ((∃ q, (handleMessageSend s req w).pending = w.pending ++ [q]) ↔
        ∃ params, decodeParams s s.unmarshalMessageSendParams req.Params = some params ∧
          (s.HandleMessageSend w.trace params).2 = none ∧ w.taskQueue.length < s.maxSize)) ∧
    (∀ params, decodeParams s s.unmarshalMessageSendParams req.Params = some params →
      (s.HandleMessageSend w.trace params).2 = none →
      (w.taskQueue.length < s.maxSize ∨ w.receiver = .parked) →
      (handleMessageSend s req w).pending = w.pending ++
        [{ Task := (s.HandleMessageSend w.trace params).1, RequestID := req.ID }] ∧
      (w.receiver ≠ .parked → (handleMessageSend s req w).taskQueue = w.taskQueue ++
        [{ Task := (s.HandleMessageSend w.trace params).1, RequestID := req.ID }]) ∧
      ∀ id st m, Event.UpdateTask id st m ∉ newEvents w (handleMessageSend s req w)) ∧
    ((¬ ∃ params, decodeParams s s.unmarshalMessageSendParams req.Params = some params ∧
        (s.HandleMessageSend w.trace params).2 = none ∧
        (w.taskQueue.length < s.maxSize ∨ w.receiver = .parked)) →
      (handleMessageSend s req w).taskQueue = w.taskQueue ∧
      (handleMessageSend s req w).receiver = w.receiver) ∧
    (processorStep s w).pending = w.pending.drop 1 ∧
    received s w [.receive] = w.pending.take 1 ∧
    w.pending ++ admitted s w steps = received s w steps ++ (runQueue s w steps).pending ∧
    (w.pending = [] →
      admitted s w steps = received s w steps ++ (runQueue s w steps).pending) ∧
    ChannelOK (runQueue s w steps) := by
  obtain ⟨hcases, _⟩ := handleMessageSend_pending s req w hok
  obtain ⟨hhand, hadd, _, _, _⟩ := handleMessageSend_channel s req w
  obtain ⟨hinv, hbound, hfifo⟩ := runQueue_invariant s steps w hok
  have hiff : (∃ q, (handleMessageSend s req w).pending = w.pending ++ [q]) ↔
      ∃ params, decodeParams s s.unmarshalMessageSendParams req.Params = some params ∧
        (s.HandleMessageSend w.trace params).2 = none ∧
        (w.taskQueue.length < s.maxSize ∨ w.receiver = .parked) := by
    constructor
    · rintro ⟨q, hq⟩
      rcases hcases with ⟨params, hd, h2, hc, _⟩ | ⟨_, _, _, hp, _⟩
      · exact ⟨params, hd, h2, hc⟩
      · rw [hp] at hq
        have hlen := congrArg List.length hq
        simp at hlen
    · rintro hadmit
      rcases hcases with ⟨params, _, _, _, hp, _⟩ | ⟨hno, _⟩
      · exact ⟨_, hp⟩
      · exact absurd hadmit hno
  refine ⟨hbound, hiff, ?_, ?_, ?_, (processorStep_channel s w).1, ?_, hfifo, ?_, hinv⟩
  · intro hpos
    rw [hiff]
    constructor
    · rintro ⟨params, hd, h2, hc⟩
      rcases hc with h | h
      · exact ⟨params, hd, h2, h⟩
      · refine ⟨params, hd, h2, ?_⟩
        rw [hok h]
        exact hpos
    · rintro ⟨params, hd, h2, h⟩
      exact ⟨params, hd, h2, Or.inl h⟩
  · intro params hd h2 hc
    rcases hcases with ⟨params', hd', _, _, hp, _⟩ | ⟨hno, _⟩
    · have hpe : params' = params := by
        rw [hd] at hd'
        exact (Option.some.inj hd').symm
      rw [hpe] at hp
      refine ⟨hp, ?_, ?_⟩
      · intro hnp
        rcases hc with hlt | hpk
        · exact (hadd params hd h2 hnp hlt).1
        · exact absurd hpk hnp
      · by_cases hpk : w.receiver = .parked
        · exact (hhand params hd h2 hpk).2.2
        · rcases hc with hlt | hpk'
          · exact (hadd params hd h2 hpk hlt).2.2
          · exact absurd hpk' hpk
    · exact absurd ⟨params, hd, h2, hc⟩ hno
  · intro hno
    rcases hcases with ⟨params, hd, h2, hc, _⟩ | ⟨_, hq, hr, _⟩
    · exact absurd ⟨params, hd, h2, hc⟩ hno
    · exact ⟨hq, hr⟩
  · simp [received]
  · intro hempty
    rw [hempty] at hfifo
    simpa using hfifo

/-- C18 at a concrete input: `echoServer`, whose queue has capacity one,
handles two `message/send` requests and then the processor takes a turn.  The
first request is admitted, the second finds the queue full, and the processor
takes up the first entry. -/
theorem queue_bounded_fifo_witness :
    admitted echoServer emptyWorld [.send sendRequest, .send sendRequest, .receive] =
      [{ Task := some helloTask, RequestID := some (.num 1) }] ∧
    received echoServer emptyWorld [.send sendRequest, .send sendRequest, .receive] =
      [{ Task := some helloTask, RequestID := some (.num 1) }] ∧
    (runQueue echoServer emptyWorld
      [.send sendRequest, .send sendRequest, .receive]).pending = [] ∧
    admitted echoServer emptyWorld [.send sendRequest, .send sendRequest, .receive] =
      received echoServer emptyWorld [.send sendRequest, .send sendRequest, .receive] ++
        (runQueue echoServer emptyWorld
          [.send sendRequest, .send sendRequest, .receive]).pending := by
  have hok : ChannelOK emptyWorld := fun _ => rfl
  have h := (queue_bounded_fifo echoServer emptyWorld
    [.send sendRequest, .send sendRequest, .receive] sendRequest hok).2.2.2.2.2.2.2.2.1 rfl
  have hfirstq : (handleMessageSend echoServer sendRequest emptyWorld).taskQueue =
      [{ Task := some helloTask, RequestID := some (.num 1) }] := by
    simp [handleMessageSend, echoServer, sendRequest, emptyWorld]
  have hfirstr : (handleMessageSend echoServer sendRequest emptyWorld).receiver = .running := by
    simp [handleMessageSend, echoServer, sendRequest, emptyWorld]
  have hsecond := (handleMessageSend_channel echoServer sendRequest
    (handleMessageSend echoServer sendRequest emptyWorld)).2.2.2.2
      (by rw [hfirstr]; decide) (by rw [hfirstq]; decide)
  have hrecv : received echoServer emptyWorld
      [.send sendRequest, .send sendRequest, .receive] =
      [{ Task := some helloTask, RequestID := some (.num 1) }] := by
    simp [received, World.pending, hsecond.1, hsecond.2, hfirstq, hfirstr]
  have hfinal : (runQueue echoServer emptyWorld
      [.send sendRequest, .send sendRequest, .receive]).pending = [] := by
    simp only [runQueue, List.foldl_cons, List.foldl_nil, queueStep]
    rw [(processorStep_channel _ _).1]
    simp [World.pending, hsecond.1, hsecond.2, hfirstq, hfirstr]
  refine ⟨?_, hrecv, hfinal, h⟩
  rw [h, hrecv, hfinal]
  rfl

/-- C18, the claim as stated fails.  `unbufferedServer` has a queue of
capacity zero.  Its processor blocks on the empty queue; a `message/send` whose
params decode and whose task is created then finds a queue that does not hold
fewer than `maxSize` entries, and yet its entry is admitted: it is handed to
the processor, which takes it up at its next turn. -/
theorem unbuffered_queue_admits_when_processor_waits :
    ¬ parkedWorld.taskQueue.length < unbufferedServer.maxSize ∧
    processorStep unbufferedServer emptyWorld = parkedWorld ∧
    (handleMessageSend unbufferedServer sendRequest parkedWorld).pending =
      parkedWorld.pending ++ [{ Task := some helloTask, RequestID := some (.num 1) }] ∧
    admitted unbufferedServer emptyWorld [.receive, .send sendRequest, .receive] =
      [{ Task := some helloTask, RequestID := some (.num 1) }] ∧
    received unbufferedServer emptyWorld [.receive, .send sendRequest, .receive] =
      [{ Task := some helloTask, RequestID := some (.num 1) }] := by
  have hstep : processorStep unbufferedServer emptyWorld = parkedWorld := rfl
  have hr : (handleMessageSend unbufferedServer sendRequest parkedWorld).receiver =
      .handed { Task := some helloTask, RequestID := some (.num 1) } := by
    simp [handleMessageSend, unbufferedServer, echoServer, sendRequest, parkedWorld]
  have hq : (handleMessageSend unbufferedServer sendRequest parkedWorld).taskQueue = [] := by
    simp [handleMessageSend, unbufferedServer, echoServer, sendRequest, parkedWorld]
  have hp : (handleMessageSend unbufferedServer sendRequest parkedWorld).pending =
      [{ Task := some helloTask, RequestID := some (.num 1) }] := by
    simp [World.pending, hr, hq]
  refine ⟨by decide, hstep, ?_, ?_, ?_⟩
  · rw [hp]
    rfl
  · simp only [admitted, hstep]
    simp [sentEntries, parkedWorld, hr]
    simp [parkedWorld] at hr
    simp [hr]
  · simp only [received, hstep]
    simp [hp]
    rfl

/-! ## ProcessTask -/

/-- C19, as amended.  For every server without an agent, `ProcessTask` makes
one call, to the task handler with the same task and the same message, and
returns the handler's task and error unchanged.  For every server with an
agent and every task that is not nil, `ProcessTask` makes one call, to the
agent's `ProcessTask` with the same task and message, returns what the agent
returns, and does not call the task handler. -/
theorem ProcessTask_delegates (s : A2AServerImpl) (task : Option Task)
    (message : Option Message) (w : World) :
    (s.agent = none →
      (ProcessTask s task message w).1 = some (s.taskHandler w.trace task message) ∧
      newEvents w (ProcessTask s task message w).2 = [.HandleTask task message] ∧
      (ProcessTask s task message w).2.taskQueue = w.taskQueue) ∧
    (∀ agent t, s.agent = some agent → task = some t →
      (ProcessTask s task message w).1 = some (agent w.trace task message) ∧
      newEvents w (ProcessTask s task message w).2 = [.AgentProcessTask task message] ∧
      (∀ t' m', Event.HandleTask t' m' ∉ newEvents w (ProcessTask s task message w).2) ∧
      (ProcessTask s task message w).2.taskQueue = w.taskQueue) := by
  constructor
  · intro h
    simp [ProcessTask, h, newEvents]
  · intro agent t h ht
    subst ht
    simp [ProcessTask, h, newEvents]

/-- C19 at concrete inputs: the handler of `echoServer` completes `helloTask`;
the agent of `agentServer` is called instead of its handler. -/
theorem ProcessTask_delegates_witness :
    (ProcessTask echoServer (some helloTask) (some helloMessage) emptyWorld).1 =
      some (some { helloTask with Status := { State := .completed, Message := none } }, none) ∧
    newEvents emptyWorld (ProcessTask echoServer (some helloTask) (some helloMessage) emptyWorld).2 =
      [.HandleTask (some helloTask) (some helloMessage)] ∧
    newEvents emptyWorld (ProcessTask agentServer (some helloTask) (some helloMessage) emptyWorld).2 =
      [.AgentProcessTask (some helloTask) (some helloMessage)] :=
  have h1 := (ProcessTask_delegates echoServer (some helloTask) (some helloMessage) emptyWorld).1 rfl
  have h2 := (ProcessTask_delegates agentServer (some helloTask) (some helloMessage)
    emptyWorld).2 _ helloTask rfl rfl
  ⟨h1.1, h1.2.1, h2.2.1⟩

/-- C19, the claim as stated fails.  `agentServer` has an agent; on a nil task
`ProcessTask` reads `task.ID` for its log line and panics: it returns nothing
and calls neither the agent nor the task handler. -/
theorem ProcessTask_agent_nil_task_panics :
    agentServer.agent ≠ none ∧
    (ProcessTask agentServer none (some helloMessage) emptyWorld).1 = none ∧
    newEvents emptyWorld (ProcessTask agentServer none (some helloMessage) emptyWorld).2 =
      [.nilDeref] := by
  refine ⟨?_, ?_, ?_⟩
  · simp [agentServer]
  · simp [ProcessTask, agentServer]
  · simp [ProcessTask, agentServer, newEvents, emptyWorld]

/-! ## Agent card -/

/-- C20.  For every configuration, `GetAgentCard` returns a card with the
configuration's name, description, URL and version, also after each of the
four setters; its three capability flags are all present, equal to the
configured streaming, push-notifications and state-transition-history values
when the configuration has a capabilities section and to true, true, false
when it has none; its default input modes and default output modes are each
`["text/plain"]`; and its skills list is empty. -/
theorem GetAgentCard_reflects_config (cfg : Config) (value : String) :
    (GetAgentCard cfg).Name = cfg.AgentName ∧
    (GetAgentCard cfg).Description = cfg.AgentDescription ∧
    (GetAgentCard cfg).URL = cfg.AgentURL ∧
    (GetAgentCard cfg).Version = cfg.AgentVersion ∧
    (GetAgentCard (SetAgentName cfg value)).Name = value ∧
    (GetAgentCard (SetAgentDescription cfg value)).Description = value ∧
    (GetAgentCard (SetAgentURL cfg value)).URL = value ∧
    (GetAgentCard (SetAgentVersion cfg value)).Version = value ∧
    (∀ c, cfg.Capabilities = some c →
      (GetAgentCard cfg).Capabilities.Streaming = some c.Streaming ∧
      (GetAgentCard cfg).Capabilities.PushNotifications = some c.PushNotifications ∧
      (GetAgentCard cfg).Capabilities.StateTransitionHistory = some c.StateTransitionHistory) ∧
    (cfg.Capabilities = none →
      (GetAgentCard cfg).Capabilities.Streaming = some true ∧
      (GetAgentCard cfg).Capabilities.PushNotifications = some true ∧
      (GetAgentCard cfg).Capabilities.StateTransitionHistory = some false) ∧
    (GetAgentCard cfg).Capabilities.Streaming ≠ none ∧
    (GetAgentCard cfg).Capabilities.PushNotifications ≠ none ∧
    (GetAgentCard cfg).Capabilities.StateTransitionHistory ≠ none ∧
    (GetAgentCard cfg).DefaultInputModes = ["text/plain"] ∧
    (GetAgentCard cfg).DefaultOutputModes = ["text/plain"] ∧
    (GetAgentCard cfg).Skills = [] := by
  refine ⟨rfl, rfl, rfl, rfl, rfl, rfl, rfl, rfl, ?_, ?_, ?_, ?_, ?_, rfl, rfl, rfl⟩
  · intro c h
    simp [GetAgentCard, h]
  · intro h
    simp [GetAgentCard, h]
  · cases h : cfg.Capabilities <;> simp [GetAgentCard, h]
  · cases h : cfg.Capabilities <;> simp [GetAgentCard, h]
  · cases h : cfg.Capabilities <;> simp [GetAgentCard, h]

/-- C20 at a concrete input: the configuration of the tests, which has no
capabilities section. -/
theorem GetAgentCard_reflects_config_witness :
    GetAgentCard testConfig =
      { Name := "test-agent", Description := "A test agent", URL := "http://test-agent:8080",
        Version := "1.0.0",
        Capabilities := { Streaming := some true, PushNotifications := some true,
                          StateTransitionHistory := some false },
        DefaultInputModes := ["text/plain"], DefaultOutputModes := ["text/plain"],
        Skills := [] } ∧
    (GetAgentCard testConfig).Capabilities.Streaming = some true :=
  ⟨rfl, ((GetAgentCard_reflects_config testConfig "").2.2.2.2.2.2.2.2.2.1 rfl).1⟩

/-! ## The queued path: executor, gating and nil results -/

theorem processQueuedTask_trace_rejected (s : A2AServerImpl) (task : Task)
    (rid : Option IDValue) (w : World) (err : GoError)
    (hw : s.UpdateTask w.trace task.ID TaskStateWorking none = some err) :
    (processQueuedTask s { Task := some task, RequestID := rid } w).trace =
      w.trace ++ [.UpdateTask task.ID TaskStateWorking none] := by
  cases hmsg : task.Status.Message <;> simp [processQueuedTask, hmsg, hw, World.drawUUID]

theorem processQueuedTask_trace_error (s : A2AServerImpl) (task : Task)
    (rid : Option IDValue) (w : World) (e : GoError)
    (hw : s.UpdateTask w.trace task.ID TaskStateWorking none = none)
    (h2 : (s.taskHandler (w.trace ++ [.UpdateTask task.ID TaskStateWorking none])
      (some task) (some (queuedMessage s task w))).2 = some e) :
    ∃ messageID, (processQueuedTask s { Task := some task, RequestID := rid } w).trace =
      w.trace ++ [.UpdateTask task.ID TaskStateWorking none,
        .HandleTask (some task) (some (queuedMessage s task w)),
        .UpdateTask task.ID TaskStateFailed (some (assistantTextMessage messageID e.Error))] := by
  cases hmsg : task.Status.Message with
  | none => exact ⟨s.uuid (w.uuids + 1), by simp [processQueuedTask, hmsg, hw, h2, World.drawUUID]⟩
  | some msg => exact ⟨s.uuid w.uuids, by simp [processQueuedTask, hmsg, hw, h2, World.drawUUID]⟩

theorem processQueuedTask_trace_nil (s : A2AServerImpl) (task : Task)
    (rid : Option IDValue) (w : World)
    (hw : s.UpdateTask w.trace task.ID TaskStateWorking none = none)
    (h2 : (s.taskHandler (w.trace ++ [.UpdateTask task.ID TaskStateWorking none])
      (some task) (some (queuedMessage s task w))).2 = none)
    (h1 : (s.taskHandler (w.trace ++ [.UpdateTask task.ID TaskStateWorking none])
      (some task) (some (queuedMessage s task w))).1 = none) :
    (processQueuedTask s { Task := some task, RequestID := rid } w).trace =
      w.trace ++ [.UpdateTask task.ID TaskStateWorking none,
        .HandleTask (some task) (some (queuedMessage s task w)), .nilDeref] := by
  cases hmsg : task.Status.Message <;>
    simp [processQueuedTask, hmsg, hw, h1, h2, World.drawUUID]

theorem processQueuedTask_trace_returned (s : A2AServerImpl) (task : Task)
    (rid : Option IDValue) (w : World) (updatedTask : Task)
    (hw : s.UpdateTask w.trace task.ID TaskStateWorking none = none)
    (h2 : (s.taskHandler (w.trace ++ [.UpdateTask task.ID TaskStateWorking none])
      (some task) (some (queuedMessage s task w))).2 = none)
    (h1 : (s.taskHandler (w.trace ++ [.UpdateTask task.ID TaskStateWorking none])
      (some task) (some (queuedMessage s task w))).1 = some updatedTask) :
    (processQueuedTask s { Task := some task, RequestID := rid } w).trace =
      w.trace ++ [.UpdateTask task.ID TaskStateWorking none,
        .HandleTask (some task) (some (queuedMessage s task w)),
        .UpdateTask updatedTask.ID updatedTask.Status.State none] := by
  cases hmsg : task.Status.Message <;>
    simp [processQueuedTask, hmsg, hw, h1, h2, World.drawUUID]

/-- The four ways `processQueuedTask` can run on an entry that holds a task,
with the calls it makes in each. -/
theorem processQueuedTask_newEvents_cases (s : A2AServerImpl) (task : Task)
    (rid : Option IDValue) (w : World) :
    (s.UpdateTask w.trace task.ID TaskStateWorking none ≠ none ∧
      newEvents w (processQueuedTask s { Task := some task, RequestID := rid } w) =
        [.UpdateTask task.ID TaskStateWorking none]) ∨
    (s.UpdateTask w.trace task.ID TaskStateWorking none = none ∧
      ∃ last, newEvents w (processQueuedTask s { Task := some task, RequestID := rid } w) =
        [.UpdateTask task.ID TaskStateWorking none,
         .HandleTask (some task) (some (queuedMessage s task w)), last] ∧
        ((∃ id st m, last = .UpdateTask id st m) ∨
          (last = .nilDeref ∧
            s.taskHandler (w.trace ++ [.UpdateTask task.ID TaskStateWorking none])
              (some task) (some (queuedMessage s task w)) = (none, none))) ∧
        (last = .nilDeref →
          s.taskHandler (w.trace ++ [.UpdateTask task.ID TaskStateWorking none])
            (some task) (some (queuedMessage s task w)) = (none, none))) := by
  cases hw : s.UpdateTask w.trace task.ID TaskStateWorking none with
  | some err =>
    exact Or.inl ⟨by simp, newEvents_of_trace _ _ _
      (processQueuedTask_trace_rejected s task rid w err hw)⟩
  | none =>
    refine Or.inr ⟨rfl, ?_⟩
    cases h2 : (s.taskHandler (w.trace ++ [.UpdateTask task.ID TaskStateWorking none])
        (some task) (some (queuedMessage s task w))).2 with
    | some e =>
      obtain ⟨messageID, ht⟩ := processQueuedTask_trace_error s task rid w e hw h2
      exact ⟨_, newEvents_of_trace _ _ _ ht, Or.inl ⟨_, _, _, rfl⟩, by simp⟩
    | none =>
      cases h1 : (s.taskHandler (w.trace ++ [.UpdateTask task.ID TaskStateWorking none])
          (some task) (some (queuedMessage s task w))).1 with
      | none =>
        have heq : s.taskHandler (w.trace ++ [.UpdateTask task.ID TaskStateWorking none])
            (some task) (some (queuedMessage s task w)) = (none, none) := Prod.ext h1 h2
        exact ⟨_, newEvents_of_trace _ _ _ (processQueuedTask_trace_nil s task rid w hw h2 h1),
          Or.inr ⟨rfl, heq⟩, fun _ => heq⟩
      | some updatedTask =>
        exact ⟨_, newEvents_of_trace _ _ _
          (processQueuedTask_trace_returned s task rid w updatedTask hw h2 h1),
          Or.inl ⟨_, _, _, rfl⟩, by simp⟩

theorem processQueuedTask_never_calls_agent (s : A2AServerImpl) (task : Task)
    (rid : Option IDValue) (w : World) :
    ∀ t m, Event.AgentProcessTask t m ∉
      newEvents w (processQueuedTask s { Task := some task, RequestID := rid } w) := by
  intro t m
  rcases processQueuedTask_newEvents_cases s task rid w with ⟨_, h⟩ | ⟨_, last, h, hlast, _⟩
  · rw [h]; simp
  · rw [h]
    rcases hlast with ⟨id, st, m', rfl⟩ | ⟨rfl, _⟩ <;> simp

/-- C21, what the code does at the failing input.  On `echoServer`, which has
no agent, `SetAgent` sets `askingAgent`.  `ProcessTask` then hands `helloTask`
to the agent, while `processQueuedTask` hands the same task, dequeued, to the
task handler and never calls the agent: the two paths use different
executors, and the dequeued task ends completed where the agent would have
asked for input. -/
theorem processQueuedTask_ignores_agent :
    GetAgent (SetAgent echoServer (some askingAgent)) = some askingAgent ∧
    newEvents emptyWorld
        (ProcessTask (SetAgent echoServer (some askingAgent)) (some helloTask)
          (some helloMessage) emptyWorld).2 =
      [.AgentProcessTask (some helloTask) (some helloMessage)] ∧
    newEvents emptyWorld
        (processQueuedTask (SetAgent echoServer (some askingAgent))
          { Task := some helloTask, RequestID := none } emptyWorld) =
      [.UpdateTask "task-456" TaskStateWorking none,
       .HandleTask (some helloTask) (some helloMessage),
       .UpdateTask "task-456" .completed none] := by
  refine ⟨rfl, ?_, ?_⟩
  · simp [ProcessTask, SetAgent, newEvents, emptyWorld]
  · have htrace : (processQueuedTask (SetAgent echoServer (some askingAgent))
        { Task := some helloTask, RequestID := none } emptyWorld).trace = emptyWorld.trace ++
        [.UpdateTask "task-456" TaskStateWorking none,
         .HandleTask (some helloTask) (some helloMessage),
         .UpdateTask "task-456" .completed none] := by
      simp [processQueuedTask, SetAgent, echoServer, helloTask, queuedMessage, emptyWorld]
    exact newEvents_of_trace _ _ _ htrace

/-- C22.  For every dequeued task with id `i`: the first call of
`processQueuedTask` is `UpdateTask(i, working, nil)`, so it comes before any
call of the task handler; the task handler is called if and only if that
update succeeded, and then exactly once, right after the update; when the
update fails, the update is the only call made for the entry. -/
theorem processQueuedTask_update_gates_handler (s : A2AServerImpl) (task : Task)
    (rid : Option IDValue) (w : World) :
    (∃ rest, newEvents w (processQueuedTask s { Task := some task, RequestID := rid } w) =
      .UpdateTask task.ID TaskStateWorking none :: rest) ∧
    ((∃ t m, Event.HandleTask t m ∈
        newEvents w (processQueuedTask s { Task := some task, RequestID := rid } w)) ↔
      s.UpdateTask w.trace task.ID TaskStateWorking none = none) ∧
    (s.UpdateTask w.trace task.ID TaskStateWorking none = none →
      ∃ m last, newEvents w (processQueuedTask s { Task := some task, RequestID := rid } w) =
        [.UpdateTask task.ID TaskStateWorking none, .HandleTask (some task) (some m), last] ∧
        (∀ t' m', last ≠ .HandleTask t' m')) ∧
    (∀ err, s.UpdateTask w.trace task.ID TaskStateWorking none = some err →
      newEvents w (processQueuedTask s { Task := some task, RequestID := rid } w) =
        [.UpdateTask task.ID TaskStateWorking none] ∧
      registryCalls
          (newEvents w (processQueuedTask s { Task := some task, RequestID := rid } w)) =
        [.UpdateTask task.ID TaskStateWorking none]) := by
  have hfail : ∀ err, s.UpdateTask w.trace task.ID TaskStateWorking none = some err →
      newEvents w (processQueuedTask s { Task := some task, RequestID := rid } w) =
        [.UpdateTask task.ID TaskStateWorking none] := by
    intro err hw
    exact newEvents_of_trace _ _ _ (processQueuedTask_trace_rejected s task rid w err hw)
  have hok : s.UpdateTask w.trace task.ID TaskStateWorking none = none →
      ∃ m last, newEvents w (processQueuedTask s { Task := some task, RequestID := rid } w) =
        [.UpdateTask task.ID TaskStateWorking none, .HandleTask (some task) (some m), last] ∧
        (∀ t' m', last ≠ .HandleTask t' m') := by
    intro hw
    rcases processQueuedTask_newEvents_cases s task rid w with ⟨hne, _⟩ | ⟨_, last, h, hlast, _⟩
    · exact absurd hw hne
    · refine ⟨queuedMessage s task w, last, h, ?_⟩
      intro t' m'
      rcases hlast with ⟨id, st, m0, rfl⟩ | ⟨rfl, _⟩ <;> simp
  refine ⟨?_, ?_, hok, ?_⟩
  · cases hw : s.UpdateTask w.trace task.ID TaskStateWorking none with
    | some err => exact ⟨[], hfail err hw⟩
    | none =>
      obtain ⟨m, last, h, _⟩ := hok hw
      exact ⟨_, h⟩
  · constructor
    · rintro ⟨t, m, hmem⟩
      cases hw : s.UpdateTask w.trace task.ID TaskStateWorking none with
      | none => rfl
      | some err =>
        rw [hfail err hw] at hmem
        simp at hmem
    · intro hw
      obtain ⟨m, last, h, _⟩ := hok hw
      exact ⟨some task, some m, by rw [h]; simp⟩
  · intro err hw
    rw [hfail err hw]
    exact ⟨rfl, by simp [registryCalls]⟩

/-- C22 at a concrete input: the registry of `rejectingServer` rejects the
update to working, and the update is the only call. -/
theorem processQueuedTask_update_gates_handler_witness :
    newEvents emptyWorld
        (processQueuedTask rejectingServer { Task := some helloTask, RequestID := none }
          emptyWorld) =
      [.UpdateTask "task-456" TaskStateWorking none] ∧
    ∃ m last, newEvents emptyWorld
        (processQueuedTask echoServer { Task := some helloTask, RequestID := none }
          emptyWorld) =
      [.UpdateTask "task-456" TaskStateWorking none, .HandleTask (some helloTask) (some m),
        last] :=
  have h1 := (processQueuedTask_update_gates_handler rejectingServer helloTask none
    emptyWorld).2.2.2 (.other "task not found") rfl
  have h2 := (processQueuedTask_update_gates_handler echoServer helloTask none
    emptyWorld).2.2.1 rfl
  ⟨h1.1, h2.elim fun m hm => hm.elim fun last hl => ⟨m, last, hl.1⟩⟩

theorem processQueuedTask_panics_iff (s : A2AServerImpl) (task : Task)
    (rid : Option IDValue) (w : World) :
    panicked (newEvents w (processQueuedTask s { Task := some task, RequestID := rid } w)) = true ↔
      s.UpdateTask w.trace task.ID TaskStateWorking none = none ∧
      s.taskHandler (w.trace ++ [.UpdateTask task.ID TaskStateWorking none]) (some task)
        (some (queuedMessage s task w)) = (none, none) := by
  rcases processQueuedTask_newEvents_cases s task rid w with
    ⟨hne, h⟩ | ⟨hw, last, h, hlast, hnil⟩
  · rw [h]
    constructor
    · intro hp
      simp [panicked] at hp
    · rintro ⟨hw, _⟩
      exact absurd hw hne
  · rw [h]
    rcases hlast with ⟨id, st, m, rfl⟩ | ⟨rfl, heq⟩
    · constructor
      · intro hp
        simp [panicked] at hp
      · rintro ⟨_, heq⟩
        have htrace := processQueuedTask_trace_nil s task rid w hw
          (by rw [heq]) (by rw [heq])
        have hnew := newEvents_of_trace _ _ _ htrace
        rw [h] at hnew
        simp at hnew
    · exact ⟨fun _ => ⟨hw, heq⟩, fun _ => by simp [panicked]⟩

/-- C23, what the code does at the failing input.  `nilReplyServer` processes
the dequeued task `helloTask`; its task handler returns a nil task and a nil
error.  After the update to working and the handler call, `processQueuedTask`
reads `updatedTask.ID` through the nil pointer and panics: no further registry
call is made and the task stays in the working state. -/
theorem processQueuedTask_nil_result_panics :
    newEvents emptyWorld
        (processQueuedTask nilReplyServer { Task := some helloTask, RequestID := none }
          emptyWorld) =
      [.UpdateTask "task-456" TaskStateWorking none,
       .HandleTask (some helloTask) (some helloMessage),
       .nilDeref] ∧
    panicked (newEvents emptyWorld
        (processQueuedTask nilReplyServer { Task := some helloTask, RequestID := none }
          emptyWorld)) = true := by
  have htrace : (processQueuedTask nilReplyServer { Task := some helloTask, RequestID := none }
      emptyWorld).trace = emptyWorld.trace ++
      [.UpdateTask "task-456" TaskStateWorking none,
       .HandleTask (some helloTask) (some helloMessage),
       .nilDeref] := by
    simp [processQueuedTask, nilReplyServer, echoServer, helloTask, queuedMessage, emptyWorld]
  rw [newEvents_of_trace _ _ _ htrace]
  exact ⟨rfl, by simp [panicked]⟩

end A2A
